import Mathlib

/-!
Verification of the environment lifecycle and credential-synchronization
engine of the sistema-admin repository, as a shallow embedding in Lean 4.

The JavaScript sources embedded here:
* the persistent store module (`createAmbiente`, `updateAmbiente`,
  `deleteAmbiente`, `sincronizarAmbientesExistentes`, `authenticateLogin`,
  `hashPassword`, `verifyPassword`);
* the environment manager (`copiarDiretorio`, `limparConfigEnvBanco`,
  `atualizarCredenciaisBanco`, `obterCredenciaisBanco`);
* the batch processor (`processarLote`).

Modelling conventions:
* JavaScript strings are Lean `String`s; the string operations the code
  relies on (`split`, `trim`, `startsWith`, `toLowerCase`) are defined
  below over the character list `String.data`, with JavaScript semantics.
* The JSON document store is a Lean structure; a read-modify-write cycle
  becomes a pure function from the document to the document.
* Filesystem trees are an inductive type; file contents are strings.
* Timestamps (`new Date().toISOString()`) and `Date.now()` are passed in
  as parameters, since they do not influence any verified property.
-/

/-- Splits a character list at every occurrence of the separator, JavaScript
`String.prototype.split` semantics for a one-character separator: the result
is never empty, and separators at the ends produce empty fragments. -/
def splitOnChar (c : Char) : List Char → List (List Char)
  | [] => [[]]
  | x :: xs =>
    if x = c then [] :: splitOnChar c xs
    else
      match splitOnChar c xs with
      | [] => [[x]]
      | y :: ys => (x :: y) :: ys

/-- JavaScript `s.split(c)` for a one-character separator. -/
def jsSplit (s : String) (c : Char) : List String :=
  (splitOnChar c s.data).map (fun l => String.mk l)

/-- JavaScript `s.startsWith(p)`. -/
def jsStartsWith (s p : String) : Bool :=
  p.data.isPrefixOf s.data

/-- JavaScript `s.trim()`: strips leading and trailing whitespace. -/
def jsTrim (s : String) : String :=
  String.mk (((s.data.dropWhile Char.isWhitespace).reverse.dropWhile Char.isWhitespace).reverse)

/-- JavaScript `s.toLowerCase()` (ASCII case folding). -/
def jsToLower (s : String) : String :=
  String.mk (s.data.map Char.toLower)

/-- JavaScript `a || b` on strings: the empty string is falsy. -/
def jsOr (a b : String) : String :=
  if a = "" then b else a

/-!
SHA-256, as used by the store's `hashPassword`
(`crypto.createHash('sha256').update(password).digest('hex')`).
Words are `Nat`s reduced modulo `2 ^ 32`.
-/

/-- Addition modulo `2 ^ 32`. -/
def add32 (a b : Nat) : Nat := (a + b) % 4294967296

/-- Right rotation of a 32-bit word. -/
def rotr32 (n x : Nat) : Nat := ((x >>> n) ||| (x <<< (32 - n))) % 4294967296

/-- Bitwise complement of a 32-bit word. -/
def not32 (x : Nat) : Nat := Nat.xor x 4294967295

/-- SHA-256 choice function. -/
def sha256ch (e f g : Nat) : Nat := Nat.xor (Nat.land e f) (Nat.land (not32 e) g)

/-- SHA-256 majority function. -/
def sha256maj (a b c : Nat) : Nat := Nat.xor (Nat.xor (Nat.land a b) (Nat.land a c)) (Nat.land b c)

/-- SHA-256 big sigma 0. -/
def bigSigma0 (x : Nat) : Nat := Nat.xor (Nat.xor (rotr32 2 x) (rotr32 13 x)) (rotr32 22 x)

/-- SHA-256 big sigma 1. -/
def bigSigma1 (x : Nat) : Nat := Nat.xor (Nat.xor (rotr32 6 x) (rotr32 11 x)) (rotr32 25 x)

/-- SHA-256 small sigma 0. -/
def smallSigma0 (x : Nat) : Nat := Nat.xor (Nat.xor (rotr32 7 x) (rotr32 18 x)) (x >>> 3)

/-- SHA-256 small sigma 1. -/
def smallSigma1 (x : Nat) : Nat := Nat.xor (Nat.xor (rotr32 17 x) (rotr32 19 x)) (x >>> 10)

/-- The SHA-256 round constants. -/
def sha256K : List Nat :=
  [1116352408, 1899447441, 3049323471, 3921009573, 961987163, 1508970993,
   2453635748, 2870763221, 3624381080, 310598401, 607225278, 1426881987,
   1925078388, 2162078206, 2614888103, 3248222580, 3835390401, 4022224774,
   264347078, 604807628, 770255983, 1249150122, 1555081692, 1996064986,
   2554220882, 2821834349, 2952996808, 3210313671, 3336571891, 3584528711,
   113926993, 338241895, 666307205, 773529912, 1294757372, 1396182291,
   1695183700, 1986661051, 2177026350, 2456956037, 2730485921, 2820302411,
   3259730800, 3345764771, 3516065817, 3600352804, 4094571909, 275423344,
   430227734, 506948616, 659060556, 883997877, 958139571, 1322822218,
   1537002063, 1747873779, 1955562222, 2024104815, 2227730452, 2361852424,
   2428436474, 2756734187, 3204031479, 3329325298]

/-- The SHA-256 initial hash value. -/
def sha256H0 : List Nat :=
  [1779033703, 3144134277, 1013904242, 2773480762, 1359893119, 2600822924, 528734635, 1541459225]

/-- UTF-8 encoding of one code point, as a list of byte values. -/
def utf8Encode (c : Char) : List Nat :=
  let n := c.toNat
  if n < 0x80 then [n]
  else if n < 0x800 then [0xc0 + n / 64, 0x80 + n % 64]
  else if n < 0x10000 then [0xe0 + n / 4096, 0x80 + n / 64 % 64, 0x80 + n % 64]
  else [0xf0 + n / 262144, 0x80 + n / 4096 % 64, 0x80 + n / 64 % 64, 0x80 + n % 64]

/-- SHA-256 message padding over a byte list. -/
def sha256pad (msg : List Nat) : List Nat :=
  let bitLen := msg.length * 8
  msg ++ [0x80] ++ List.replicate ((119 - msg.length % 64) % 64) 0 ++
    (List.range 8).map (fun i => bitLen >>> ((7 - i) * 8) % 256)

/-- Packs four big-endian bytes into a 32-bit word. -/
def wordOfBytes (b : List Nat) : Nat := b.foldl (fun a x => a * 256 + x) 0

/-- Extends the 16 message words of a block to the 64-entry schedule. -/
def sha256schedule : Nat → List Nat → List Nat
  | 0, w => w
  | n + 1, w =>
    let k := w.length
    sha256schedule n (w ++ [add32 (add32 (smallSigma1 (w.getD (k - 2) 0)) (w.getD (k - 7) 0))
      (add32 (smallSigma0 (w.getD (k - 15) 0)) (w.getD (k - 16) 0))])

/-- One SHA-256 compression round over the eight-word working state. -/
def sha256round (st : List Nat) (kw : Nat × Nat) : List Nat :=
  let a := st.getD 0 0
  let b := st.getD 1 0
  let c := st.getD 2 0
  let d := st.getD 3 0
  let e := st.getD 4 0
  let f := st.getD 5 0
  let g := st.getD 6 0
  let h := st.getD 7 0
  let t1 := add32 h (add32 (bigSigma1 e) (add32 (sha256ch e f g) (add32 kw.1 kw.2)))
  let t2 := add32 (bigSigma0 a) (sha256maj a b c)
  [add32 t1 t2, a, b, c, add32 d t1, e, f, g]

/-- Processes one 64-byte block into the running hash value. -/
def sha256block (h : List Nat) (block : List Nat) : List Nat :=
  let ws := sha256schedule 48 ((block.toChunks 4).map wordOfBytes)
  let st := (sha256K.zip ws).foldl sha256round h
  (h.zip st).map (fun p => add32 p.1 p.2)

/-- One hexadecimal digit character (lowercase, as Node's `digest('hex')`). -/
def hexDigit (n : Nat) : Char :=
  if n < 10 then Char.ofNat (48 + n) else Char.ofNat (87 + n)

/-- Lowercase zero-padded hexadecimal rendering of one 32-bit word. -/
def toHex32 (x : Nat) : List Char :=
  (List.range 8).map (fun i => hexDigit (x >>> ((7 - i) * 4) % 16))

/-- The lowercase hexadecimal SHA-256 digest of a byte list. -/
def sha256hex (msg : List Nat) : String :=
  String.mk ((((sha256pad msg).toChunks 64).foldl sha256block sha256H0).map toHex32).flatten

/-- Source: part_001 lines 63-65. `hashPassword` is the unsalted SHA-256 hex
digest of the UTF-8 encoded password. -/
def hashPassword (password : String) : String :=
  sha256hex ((password.data.map utf8Encode).flatten)

/-- Source: part_001 lines 70-72. -/
def verifyPassword (password hash : String) : Bool :=
  hashPassword password == hash

/-!
Data model: the JSON document store (part_001 `DB_SCHEMA`). The `admin`
collection and the `bancosDisponiveis` catalog are not touched by any
operation verified here and are omitted; profile permission flags are
likewise never read by the embedded operations and are omitted from
`Perfil`.
-/

/-- An environment record of the store (part_001 lines 178-190). -/
structure Ambiente where
  id : String
  nome : String
  porta : Nat
  path : String
  username : String
  passwordHash : String
  bancosPermitidos : List String
  pipelineKentro : Option String
  criadoEm : String
  atualizadoEm : String
  ativo : Bool
deriving DecidableEq, Repr

/-- An access profile record (part_001 lines 534-562, permission flags elided). -/
structure Perfil where
  id : String
  nome : String
  ativo : Bool
deriving DecidableEq, Repr

/-- A login record (part_001 lines 711-720). -/
structure Login where
  id : String
  username : String
  passwordHash : String
  ambienteId : String
  perfilId : Option String
  criadoEm : String
  atualizadoEm : String
  ativo : Bool
deriving DecidableEq, Repr

/-- The persistent JSON document. -/
structure Database where
  ambientes : List Ambiente
  perfis : List Perfil
  logins : List Login
deriving DecidableEq, Repr

/-- The sanitized environment view returned by `createAmbiente`
(part_001 lines 196-203): no password hash. -/
structure AmbienteView where
  id : String
  nome : String
  porta : Nat
  path : String
  bancosPermitidos : List String
deriving DecidableEq, Repr

/-- Result of `createAmbiente`. -/
structure CreateResult where
  success : Bool
  error : Option String
  ambiente : Option AmbienteView
deriving DecidableEq, Repr

/-- Source: part_001 lines 161-205. Creates an environment after checking the
port and then the name against every existing record (active or not). The
document is written back only on the success path, so a failed call leaves the
persisted document untouched. `now` stands for `Date.now()` and `agora` for
`new Date().toISOString()`. -/
def createAmbiente (db : Database) (nome : String) (porta : Nat) (username password : String)
    (bancosPermitidos : List String) (pipelineKentro : Option String) (now : Nat) (agora : String) :
    CreateResult × Database :=
  -- line 163: `pipelineKentro = null` — the supplied value is discarded
  let pipelineKentro : Option String := none
  match db.ambientes.find? (fun a => a.porta == porta) with
  | some _ =>
    ({ success := false, error := some ("Porta " ++ toString porta ++ " já está em uso"),
       ambiente := none }, db)
  | none =>
    match db.ambientes.find? (fun a => a.nome == nome) with
    | some _ =>
      ({ success := false, error := some ("Ambiente \"" ++ nome ++ "\" já existe"),
         ambiente := none }, db)
    | none =>
      let novoAmbiente : Ambiente :=
        { id := "ambiente-" ++ toString now
          nome := nome
          porta := porta
          path := "rota-" ++ toString porta ++ ".producao"
          username := username
          passwordHash := hashPassword password
          bancosPermitidos := bancosPermitidos
          pipelineKentro := pipelineKentro
          criadoEm := agora
          atualizadoEm := agora
          ativo := true }
      ({ success := true, error := none,
         ambiente := some { id := novoAmbiente.id, nome := novoAmbiente.nome,
                            porta := novoAmbiente.porta, path := novoAmbiente.path,
                            bancosPermitidos := novoAmbiente.bancosPermitidos } },
       { db with ambientes := db.ambientes ++ [novoAmbiente] })

/-- Replaces the first element satisfying the predicate; models mutating, in
place, the record returned by `Array.prototype.find`. -/
def updateFirst (p : α → Bool) (f : α → α) : List α → List α
  | [] => []
  | x :: xs => if p x then f x :: xs else x :: updateFirst p f xs

/-- The update payload of `updateAmbiente`: `none` is an absent
(`undefined`) field. For the pipeline, the inner option is JavaScript
`null`-or-string before the `|| null` coercion. -/
structure UpdateDados where
  nome : Option String
  pipelineKentro : Option (Option String)
  ativo : Option Bool
deriving DecidableEq, Repr

/-- JavaScript `v || null` for a nullable string: the empty string collapses
to `null`. -/
def jsOrNull (v : Option String) : Option String :=
  match v with
  | some s => if s = "" then none else some s
  | none => none

/-- Result of `updateAmbiente` (returns the full mutated record). -/
structure UpdateResult where
  success : Bool
  error : Option String
  ambiente : Option Ambiente
deriving DecidableEq, Repr

/-- Source: part_001 lines 258-286. Field-wise update of an environment; a
name collision with a different record fails before anything is persisted. -/
def updateAmbiente (db : Database) (ambienteId : String) (dados : UpdateDados) (agora : String) :
    UpdateResult × Database :=
  match db.ambientes.find? (fun a => a.id == ambienteId) with
  | none => ({ success := false, error := some "Ambiente não encontrado", ambiente := none }, db)
  | some ambiente =>
    let conflito : Bool :=
      match dados.nome with
      | some n => (db.ambientes.find? (fun a => a.nome == n && a.id != ambienteId)).isSome
      | none => false
    if conflito then
      ({ success := false,
         error := some ("Ambiente \"" ++ dados.nome.getD "" ++ "\" já existe"),
         ambiente := none }, db)
    else
      let aplicar := fun (a : Ambiente) =>
        { a with nome := dados.nome.getD a.nome
                 pipelineKentro :=
                   match dados.pipelineKentro with
                   | some v => jsOrNull v
                   | none => a.pipelineKentro
                 ativo := dados.ativo.getD a.ativo
                 atualizadoEm := agora }
      ({ success := true, error := none, ambiente := some (aplicar ambiente) },
       { db with ambientes := updateFirst (fun a => a.id == ambienteId) aplicar db.ambientes })

/-- Outcome of the physical directory removal attempted by `deleteAmbiente`
(part_001 lines 358-391): the directory was absent, was removed, or the
recursive removal threw with the given message. -/
inductive DirRemoveOutcome where
  | missing
  | removed
  | failed (msg : String)
deriving DecidableEq, Repr

/-- Result of `deleteAmbiente`. -/
structure DeleteResult where
  success : Bool
  error : Option String
  message : Option String
  warning : Option String
deriving DecidableEq, Repr

/-- Source: part_001 lines 339-392. The store record is spliced out and the
document saved first; only then is the physical directory removal attempted,
and its failure is downgraded to a warning on an overall-success result.
`saveOk` models the return value of `saveDatabase` (false on a write error, in
which case the persisted document is unchanged). -/
def deleteAmbiente (db : Database) (ambienteId : String) (saveOk : Bool)
    (dir : DirRemoveOutcome) : DeleteResult × Database :=
  match db.ambientes.findIdx? (fun a => a.id == ambienteId) with
  | none =>
    ({ success := false, error := some "Ambiente não encontrado", message := none,
       warning := none }, db)
  | some index =>
    let db' : Database := { db with ambientes := db.ambientes.eraseIdx index }
    if !saveOk then
      ({ success := false, error := some "Erro ao salvar banco de dados após deletar ambiente",
         message := none, warning := none }, db)
    else
      match dir with
      | .removed =>
        ({ success := true, error := none,
           message := some "Ambiente e pasta deletados com sucesso", warning := none }, db')
      | .missing =>
        ({ success := true, error := none,
           message := some "Ambiente deletado (pasta não encontrada)", warning := none }, db')
      | .failed msg =>
        ({ success := true, error := none,
           message := some "Ambiente deletado do banco de dados, mas houve erro ao deletar a pasta física",
           warning := some msg }, db')

/-- Result of `authenticateLogin`. -/
structure AuthResult where
  success : Bool
  error : Option String
  errorCode : Option String
  login : Option Login
  perfil : Option Perfil
  ambiente : Option Ambiente
deriving DecidableEq, Repr

/-- Source: part_001 lines 822-870. Case-insensitive username lookup, then the
checks in program order: login active, password, associated profile active (if
one is referenced and found), environment present, environment active. Each
failure carries a distinct `errorCode`. -/
def authenticateLogin (db : Database) (username password : String) : AuthResult :=
  let usernameNormalizado := if username == "" then "" else jsToLower (jsTrim username)
  match db.logins.find? (fun l => l.username != "" && jsToLower l.username == usernameNormalizado) with
  | none =>
    { success := false, error := some "Usuário não encontrado", errorCode := some "USER_NOT_FOUND",
      login := none, perfil := none, ambiente := none }
  | some login =>
    if !login.ativo then
      { success := false, error := some "Usuário inativo", errorCode := some "USER_INACTIVE",
        login := none, perfil := none, ambiente := none }
    else if !verifyPassword password login.passwordHash then
      { success := false, error := some "Senha incorreta", errorCode := some "INVALID_PASSWORD",
        login := none, perfil := none, ambiente := none }
    else
      let perfil : Option Perfil :=
        match login.perfilId with
        | some pid => if pid != "" then db.perfis.find? (fun p => p.id == pid) else none
        | none => none
      if (match perfil with | some p => !p.ativo | none => false) then
        { success := false, error := some "Perfil associado está inativo",
          errorCode := some "PERFIL_INACTIVE", login := none, perfil := none, ambiente := none }
      else
        match db.ambientes.find? (fun a => a.id == login.ambienteId) with
        | none =>
          { success := false, error := some "Ambiente associado não encontrado",
            errorCode := some "AMBIENTE_NOT_FOUND", login := none, perfil := none, ambiente := none }
        | some ambiente =>
          if !ambiente.ativo then
            { success := false, error := some "Ambiente associado está inativo",
              errorCode := some "AMBIENTE_INACTIVE", login := none, perfil := none, ambiente := none }
          else
            { success := true, error := none, errorCode := none,
              login := some login, perfil := perfil, ambiente := some ambiente }

/-- One environment detected on disk by `detectarAmbientesExistentes`
(ambiente-manager.js lines 16-87), restricted to the fields the
reconciliation pass reads: name, port, directory name, inferred integration
ids. -/
structure AmbienteDetectado where
  nome : String
  porta : Nat
  path : String
  bancosPermitidos : List String
deriving DecidableEq, Repr

/-- An entry of `resultados.criados` (part_001 lines 467-473). -/
structure CriadoResumo where
  id : String
  nome : String
  porta : Nat
  username : String
  password : String
deriving DecidableEq, Repr

/-- An entry of `resultados.atualizados` (part_001 lines 437-441). -/
structure AtualizadoResumo where
  id : String
  nome : String
  porta : Nat
deriving DecidableEq, Repr

/-- An entry of `resultados.existentes` (part_001 lines 443-448, 482-487). -/
structure ExistenteResumo where
  id : String
  nome : String
  porta : Nat
  status : String
deriving DecidableEq, Repr

/-- The three result lists accumulated by the reconciliation pass. -/
structure SincResultados where
  criados : List CriadoResumo
  atualizados : List AtualizadoResumo
  existentes : List ExistenteResumo
deriving DecidableEq, Repr

/-- Intermediate state of the reconciliation pass: the mutating `db.ambientes`
array together with the accumulated result lists. -/
structure SincState where
  ambientes : List Ambiente
  resultados : SincResultados
deriving DecidableEq, Repr

/-- The in-place update applied by the reconciliation pass to the record
sharing a detected environment's port (part_001 lines 422-434): directory
name always, permitted integrations only when previously empty, update
timestamp, active flag forced true. -/
def aplicarDetectado (agora : String) (d : AmbienteDetectado) (a : Ambiente) : Ambiente :=
  { a with path := d.path
           bancosPermitidos :=
             if a.bancosPermitidos.isEmpty then d.bancosPermitidos else a.bancosPermitidos
           atualizadoEm := agora
           ativo := true }

/-- One iteration of the `ambientesDetectados.forEach` loop of
`sincronizarAmbientesExistentes` (part_001 lines 409-475): port 7000 is
skipped; a record with the same port is updated in place (directory name
always, permitted integrations only when previously empty, active flag forced
true); otherwise a fresh record with default credentials derived from the port
is appended. -/
def sincStep (now : Nat) (agora : String) (st : SincState) (d : AmbienteDetectado) : SincState :=
  if d.porta == 7000 then st
  else
    match st.ambientes.find? (fun a => a.porta == d.porta) with
    | some ambienteExistente =>
      let mudou := ambienteExistente.path != d.path
      let ambientes' := updateFirst (fun a => a.porta == d.porta) (aplicarDetectado agora d) st.ambientes
      if mudou then
        { ambientes := ambientes'
          resultados := { st.resultados with
            atualizados := st.resultados.atualizados ++
              [{ id := ambienteExistente.id, nome := ambienteExistente.nome,
                 porta := ambienteExistente.porta }] } }
      else
        { ambientes := ambientes'
          resultados := { st.resultados with
            existentes := st.resultados.existentes ++
              [{ id := ambienteExistente.id, nome := ambienteExistente.nome,
                 porta := ambienteExistente.porta, status := "já registrado" }] } }
    | none =>
      let novoAmbiente : Ambiente :=
        { id := "ambiente-" ++ toString now ++ "-" ++ toString d.porta
          nome := d.nome
          porta := d.porta
          path := d.path
          username := "admin-" ++ toString d.porta
          passwordHash := hashPassword ("admin" ++ toString d.porta)
          bancosPermitidos := d.bancosPermitidos
          pipelineKentro := none
          criadoEm := agora
          atualizadoEm := agora
          ativo := true }
      { ambientes := st.ambientes ++ [novoAmbiente]
        resultados := { st.resultados with
          criados := st.resultados.criados ++
            [{ id := novoAmbiente.id, nome := novoAmbiente.nome, porta := novoAmbiente.porta,
               username := novoAmbiente.username,
               password := "admin" ++ toString d.porta }] } }

/-- The closing `db.ambientes.forEach` loop of `sincronizarAmbientesExistentes`
(part_001 lines 478-489): every record whose port is absent from the detection
list, except port 4000, is marked inactive. -/
def marcarInativos (detectados : List AmbienteDetectado) (st : SincState) : SincState :=
  st.ambientes.foldl
    (fun acc ambiente =>
      let existeNoSistema := detectados.any (fun a => a.porta == ambiente.porta)
      if !existeNoSistema && ambiente.porta != 4000 then
        { ambientes := acc.ambientes ++ [{ ambiente with ativo := false }]
          resultados := { acc.resultados with
            existentes := acc.resultados.existentes ++
              [{ id := ambiente.id, nome := ambiente.nome, porta := ambiente.porta,
                 status := "marcado como inativo (pasta não encontrada)" }] } }
      else { acc with ambientes := acc.ambientes ++ [ambiente] })
    { ambientes := [], resultados := st.resultados }

/-- Result value of `sincronizarAmbientesExistentes`. -/
structure SincResult where
  success : Bool
  totalDetectados : Nat
  resultados : SincResultados
deriving DecidableEq, Repr

/-- Source: part_001 lines 398-498. The reconciliation pass over a detection
result: the detected list drives creation/update, then stale records are
marked inactive, and the document is saved once at the end. -/
def sincronizarAmbientesExistentes (db : Database) (detectados : List AmbienteDetectado)
    (now : Nat) (agora : String) : SincResult × Database :=
  let st0 : SincState := { ambientes := db.ambientes, resultados := ⟨[], [], []⟩ }
  let st1 := detectados.foldl (sincStep now agora) st0
  let st2 := marcarInativos detectados st1
  ({ success := true, totalDetectados := detectados.length, resultados := st2.resultados },
   { db with ambientes := st2.ambientes })

/-!
Credential codec (ambiente-manager.js lines 414-592). The filesystem access
around the text transform (path resolution, existence checks, the optional
external token validation) is outside the content transform modelled here:
`atualizarCredenciaisBancoEnv` is the function applied to the `.env` content
once the environment/permission checks have passed, and
`obterCredenciaisBancoEnv` is the read side applied to the `.env` content.
-/

/-- JavaScript `Array.prototype.join` with a one-character separator, over
character lists. -/
def joinWithChar (c : Char) : List (List Char) → List Char
  | [] => []
  | [x] => x
  | x :: y :: xs => x ++ c :: joinWithChar c (y :: xs)

/-- JavaScript `linhas.join(c)` on strings. -/
def jsJoin (linhas : List String) (c : Char) : String :=
  String.mk (joinWithChar c (linhas.map String.data))

/-- The per-integration credential key names (ambiente-manager.js lines
463-482 and 551-570): primary and alternate key for login and password. -/
structure CamposCredenciais where
  login : String
  senha : String
  usr : String
  pass : String
deriving DecidableEq, Repr

/-- The fixed `mapeamentoCredenciais` table. -/
def mapeamentoCredenciais (bancoId : String) : Option CamposCredenciais :=
  if bancoId == "presencabank" then
    some { login := "PRECENÇABANK_LOGIN", senha := "PRECENÇABANK_SENHA",
           usr := "PRECENÇABANK_USR", pass := "PRECENÇABANK_PASS" }
  else if bancoId == "v8" then
    some { login := "V8_USERNAME", senha := "V8_PASSWORD",
           usr := "V8_USR", pass := "V8_PASS" }
  else if bancoId == "hubcredito" then
    some { login := "HUBCREDITO_USR", senha := "HUBCREDITO_PASS",
           usr := "HUBCREDITO_USR", pass := "HUBCREDITO_PASS" }
  else none

/-- The credentials payload `{login, senha}` supplied to the update; a missing
field is the empty string, which JavaScript treats as falsy exactly like an
absent field. -/
structure Credenciais where
  login : String
  senha : String
deriving DecidableEq, Repr

/-- The credentials object assembled by the read side; a field stays absent
when no line matched. -/
structure CredenciaisLidas where
  login : Option String
  senha : Option String
deriving DecidableEq, Repr

/-- Upsert of one credential field into the line list (ambiente-manager.js
lines 494-519): replace the first line starting with the key followed by
`=`, else append. `campo` is the JavaScript `campoLogin`/`campoSenha`
(primary key name with `||` fallback to the alternate), `campoPrimario` the
primary key name used in the second disjunct of the findIndex predicate. -/
def atualizarCampo (campo campoPrimario valor : String) (linhas : List String) : List String :=
  match linhas.findIdx? (fun l => jsStartsWith l (campo ++ "=") || jsStartsWith l (campoPrimario ++ "=")) with
  | some index => linhas.set index (campo ++ "=" ++ valor)
  | none => linhas ++ [campo ++ "=" ++ valor]

/-- Write side of the codec, the `.env` content transform of
`atualizarCredenciaisBanco` (ambiente-manager.js lines 454-531): split on
newline, upsert each supplied field, join with newline. Returns `none` when
the integration has no key mapping or when neither field is supplied (the
`ValidationError` outcomes). -/
def atualizarCredenciaisBancoEnv (bancoId : String) (envContent : String)
    (credenciais : Credenciais) : Option String :=
  match mapeamentoCredenciais bancoId with
  | none => none
  | some campos =>
    let linhas := jsSplit envContent '\n'
    let linhas1 :=
      if credenciais.login != "" then
        atualizarCampo (jsOr campos.login campos.usr) campos.login credenciais.login linhas
      else linhas
    let linhas2 :=
      if credenciais.senha != "" then
        atualizarCampo (jsOr campos.senha campos.pass) campos.senha credenciais.senha linhas1
      else linhas1
    if credenciais.login != "" || credenciais.senha != "" then some (jsJoin linhas2 '\n')
    else none

/-- The value parse applied to a matching line by the read side:
`linha.split('=')[1]?.trim() || ''`. -/
def parseValorLinha (linha : String) : String :=
  match (jsSplit linha '=').get? 1 with
  | some v => jsTrim v
  | none => ""

/-- Fold step of the read side (ambiente-manager.js lines 579-589): each
matching line overwrites the field, so the last match wins. -/
def obterCredenciaisLinhas (campos : CamposCredenciais) (linhas : List String) : CredenciaisLidas :=
  linhas.foldl
    (fun cred linha =>
      let campoLogin := jsOr campos.login campos.usr
      let campoSenha := jsOr campos.senha campos.pass
      let cred1 :=
        if jsStartsWith linha (campoLogin ++ "=") || jsStartsWith linha (campos.login ++ "=") then
          { cred with login := some (parseValorLinha linha) }
        else cred
      if jsStartsWith linha (campoSenha ++ "=") || jsStartsWith linha (campos.senha ++ "=") then
        { cred1 with senha := some (parseValorLinha linha) }
      else cred1)
    { login := none, senha := none }

/-- Read side of the codec, the `.env` content scan of `obterCredenciaisBanco`
(ambiente-manager.js lines 536-592): `none` when the integration has no key
mapping. -/
def obterCredenciaisBancoEnv (bancoId : String) (envContent : String) : Option CredenciaisLidas :=
  match mapeamentoCredenciais bancoId with
  | none => none
  | some campos => some (obterCredenciaisLinhas campos (jsSplit envContent '\n'))

/-!
Filesystem model for the directory synchronizer
(ambiente-manager.js lines 183-317): a tree of named entries, file contents
as strings.
-/

/-- A filesystem tree: a file with its content, or a directory with its
named entries. -/
inductive FsTree where
  | file (content : String)
  | dir (entries : List (String × FsTree))
deriving Repr

/-- The `mapeamentoBancos[bancoId] || bancoId` folder-name lookup
(ambiente-manager.js lines 218-224). -/
def mapeamentoBancos (bancoId : String) : String :=
  if bancoId == "presencabank" then "presençabank"
  else if bancoId == "v8" then "V8"
  else if bancoId == "hubcredito" then "hubcredito"
  else bancoId

/-- The keep/drop prefix lists for one integration's `config.env`
(ambiente-manager.js lines 191-215). -/
structure RegrasCredenciais where
  manter : List String
  remover : List String
deriving DecidableEq, Repr

/-- The fixed `credenciaisPorBanco` table, keyed by folder name. -/
def credenciaisPorBanco (nomePasta : String) : Option RegrasCredenciais :=
  if nomePasta == "presençabank" then
    some { manter := ["PRECENÇABANK_", "PORT=", "NODE_ENV=", "LOG_", "TESTE_",
                      "V8_API_URL=", "V8_AUTH_URL=", "V8_CLIENT_ID=", "V8_AUDIENCE=",
                      "KENTRO_", "#"],
           remover := ["HUBCREDITO_", "V8_USERNAME=", "V8_PASSWORD="] }
  else if nomePasta == "V8" then
    some { manter := ["V8_", "PORT=", "NODE_ENV=", "LOG_", "HTTPS_PORT=", "KENTRO_", "#"],
           remover := ["PRECENÇABANK_", "HUBCREDITO_"] }
  else if nomePasta == "hubcredito" then
    some { manter := ["HUBCREDITO_", "PORT=", "NODE_ENV=", "LOG_", "TESTE_",
                      "V8_API_URL=", "V8_AUTH_URL=", "V8_CLIENT_ID=", "V8_AUDIENCE=",
                      "KENTRO_", "#"],
           remover := ["PRECENÇABANK_", "V8_USERNAME=", "V8_PASSWORD="] }
  else none

/-- Line filter of `limparConfigEnvBanco` (ambiente-manager.js lines 236-267):
keep blank lines and comments; otherwise keep exactly the lines starting with
a keep-prefix and no drop-prefix (drop overrides keep). -/
def manterLinhaConfig (regras : RegrasCredenciais) (linha : String) : Bool :=
  let linhaTrim := jsTrim linha
  if linhaTrim == "" || jsStartsWith linhaTrim "#" then true
  else
    regras.manter.any (fun p => jsStartsWith linhaTrim p) &&
      !(regras.remover.any (fun p => jsStartsWith linhaTrim p))

/-- The `config.env` content rewrite of `limparConfigEnvBanco`
(ambiente-manager.js lines 232-270). -/
def limparConfigEnvConteudo (regras : RegrasCredenciais) (conteudo : String) : String :=
  jsJoin ((jsSplit conteudo '\n').filter (manterLinhaConfig regras)) '\n'

/-- Source: ambiente-manager.js lines 183-271. Applies the credential filter
to the copied tree's `config/config.env` file, when it exists and the
integration has filter rules; otherwise leaves the tree unchanged. -/
def limparConfigEnvBanco (bancoId : String) (destino : FsTree) : FsTree :=
  let nomePastaBanco := mapeamentoBancos bancoId
  match credenciaisPorBanco nomePastaBanco with
  | none => destino
  | some regras =>
    match destino with
    | .file c => .file c
    | .dir entries =>
      .dir (entries.map (fun e =>
        if e.1 == "config" then
          (e.1,
            match e.2 with
            | .dir entries2 =>
              FsTree.dir (entries2.map (fun e2 =>
                if e2.1 == "config.env" then
                  (e2.1,
                    match e2.2 with
                    | .file conteudo => FsTree.file (limparConfigEnvConteudo regras conteudo)
                    | t => t)
                else e2))
            | t => t)
        else e))

/-- The entry exclusion check of `copiarDiretorio` (ambiente-manager.js line
296): dependency caches, logs, version control, and every dotted name. -/
def deveIgnorar (item : String) : Bool :=
  item == "node_modules" || item == "logs" || item == ".git" || jsStartsWith item "."

mutual
/-- Source: ambiente-manager.js lines 276-317. Recursive copy of a source
tree into an initially absent destination (the callers in
`criarEstruturaAmbiente` guard the call with a destination existence check):
excluded entries are skipped at every level, files are copied byte for byte,
and when an integration id is supplied the `config/config.env` filter runs at
every directory level after that level's copy. -/
def copiarDiretorio (bancoId : Option String) : FsTree → FsTree
  | .file c => .file c
  | .dir entries =>
    let destino := FsTree.dir (copiarEntradas bancoId entries)
    match bancoId with
    | some b => limparConfigEnvBanco b destino
    | none => destino

/-- The `items.forEach` body of `copiarDiretorio`: skip excluded names,
recurse into directories, copy files. -/
def copiarEntradas (bancoId : Option String) : List (String × FsTree) → List (String × FsTree)
  | [] => []
  | (nome, t) :: resto =>
    if deveIgnorar nome then copiarEntradas bancoId resto
    else (nome, copiarDiretorio bancoId t) :: copiarEntradas bancoId resto
end

/-- Looks a path of entry names up in a tree. -/
def lookupPath : FsTree → List String → Option FsTree
  | t, [] => some t
  | .file _, _ :: _ => none
  | .dir entries, nome :: resto =>
    match entries.find? (fun e => e.1 == nome) with
    | some e => lookupPath e.2 resto
    | none => none

mutual
/-- No entry anywhere in the tree bears an excluded name. -/
def semExcluidos : FsTree → Bool
  | .file _ => true
  | .dir entries => semExcluidosEntradas entries

/-- `semExcluidos` over an entry list. -/
def semExcluidosEntradas : List (String × FsTree) → Bool
  | [] => true
  | (nome, t) :: resto => !deveIgnorar nome && semExcluidos t && semExcluidosEntradas resto
end

/-!
Batch processor (part_000 lines 1743-1820): items are dispatched in waves of
ten; each item's handler increments `processados` and exactly one of
`sucesso`/`erro` and appends one result entry; after the last wave the job is
marked done. The external multi-bank lookup is a parameter: per item it either
resolves to a per-bank success map or throws.
-/

/-- One input record of a batch job. -/
structure ItemLote where
  cpf : String
  telefone : String
  dataNascimento : String
deriving DecidableEq, Repr

/-- Outcome of `simularMultiplosBancos` for one item: a per-bank success flag
map, or a thrown error. -/
inductive ResultadoSimulacao where
  | resposta (bancos : List (String × Bool))
  | excecao (mensagem : String)
deriving DecidableEq, Repr

/-- The progress counters of a batch job. -/
structure ProgressoLote where
  total : Nat
  processados : Nat
  sucesso : Nat
  erro : Nat
deriving DecidableEq, Repr

/-- One entry of the job's result list (the per-bank payloads reduced to
their success flags). -/
structure ResultadoItem where
  cpf : String
  sucesso : Bool
  resultados : Option (List (String × Bool))
  erro : Option String
deriving DecidableEq, Repr

/-- A batch job's observable state. -/
structure Lote where
  status : String
  progresso : ProgressoLote
  resultados : List ResultadoItem
deriving DecidableEq, Repr

/-- JavaScript `s.replace(/\D/g, '')`. -/
def jsDigitsOnly (s : String) : String :=
  String.mk (s.data.filter Char.isDigit)

/-- The per-item handler of `processarLote` (part_000 lines 1755-1810): on a
response, `processados` and one of `sucesso`/`erro` advance and a result entry
with the formatted per-bank outcomes is appended; on a thrown error,
`processados` and `erro` advance and an error entry is appended. -/
def processarItem (outcome : ItemLote → ResultadoSimulacao) (lote : Lote) (item : ItemLote) : Lote :=
  match outcome item with
  | .resposta bancos =>
    let temSucesso := bancos.any (fun r => r.2)
    { lote with
      progresso := { lote.progresso with
        processados := lote.progresso.processados + 1
        sucesso := if temSucesso then lote.progresso.sucesso + 1 else lote.progresso.sucesso
        erro := if temSucesso then lote.progresso.erro else lote.progresso.erro + 1 }
      resultados := lote.resultados ++
        [{ cpf := jsDigitsOnly item.cpf, sucesso := temSucesso, resultados := some bancos,
           erro := if temSucesso then none else some "Todos os bancos falharam" }] }
  | .excecao mensagem =>
    { lote with
      progresso := { lote.progresso with
        processados := lote.progresso.processados + 1
        erro := lote.progresso.erro + 1 }
      resultados := lote.resultados ++
        [{ cpf := jsDigitsOnly item.cpf, sucesso := false, resultados := none,
           erro := some mensagem }] }

/-- The wave loop of `processarLote` (part_000 lines 1751-1814): dispatch up
to ten items, wait for the whole wave, continue with the rest. -/
def processarOndas (outcome : ItemLote → ResultadoSimulacao) : List ItemLote → Lote → Lote
  | [], lote => lote
  | item :: resto, lote =>
    processarOndas outcome ((item :: resto).drop 10)
      (((item :: resto).take 10).foldl (processarItem outcome) lote)
termination_by dados => dados.length
decreasing_by simp; omega

/-- Source: part_000 lines 1743-1820 together with the job initialisation at
lines 1683-1692: fresh counters sized by the input list, wave processing, then
the `concluido` status. -/
def processarLote (dados : List ItemLote) (outcome : ItemLote → ResultadoSimulacao) : Lote :=
  let lote : Lote :=
    { status := "processando"
      progresso := { total := dados.length, processados := 0, sucesso := 0, erro := 0 }
      resultados := [] }
  let final := processarOndas outcome dados lote
  { final with status := "concluido" }

/-!
Concrete fixture records, used only to instantiate closed witness and
counterexample statements.
-/

/-- A concrete environment record for witness statements. -/
def ambExemplo : Ambiente :=
  { id := "ambiente-1", nome := "QA", porta := 5001, path := "rota-5001.producao",
    username := "admin", passwordHash := "hash-qa", bancosPermitidos := ["v8"],
    pipelineKentro := none, criadoEm := "t0", atualizadoEm := "t0", ativo := true }

/-- A concrete profile record for witness statements. -/
def perfilExemplo : Perfil :=
  { id := "perfil-1", nome := "Operador", ativo := true }

/-- A concrete login record for witness statements; its stored hash is the
hash of the password used in the witnesses. -/
def loginExemplo : Login :=
  { id := "login-1", username := "maria", passwordHash := hashPassword "senha123",
    ambienteId := "ambiente-1", perfilId := some "perfil-1", criadoEm := "t0",
    atualizadoEm := "t0", ativo := true }

/-!
Theorems. Claim theorems are named `claimN_...`; the surrounding lemmas are
shared supporting facts.
-/

theorem processarItem_contadores (outcome : ItemLote → ResultadoSimulacao) (lote : Lote)
    (item : ItemLote) :
    (processarItem outcome lote item).progresso.total = lote.progresso.total ∧
    (processarItem outcome lote item).progresso.processados = lote.progresso.processados + 1 ∧
    (processarItem outcome lote item).progresso.sucesso + (processarItem outcome lote item).progresso.erro
      = lote.progresso.sucesso + lote.progresso.erro + 1 := by
  cases h : outcome item
  · simp only [processarItem, h]
    split <;> simp <;> omega
  · simp [processarItem, h]
    omega

theorem processarFoldl_contadores (outcome : ItemLote → ResultadoSimulacao) (wave : List ItemLote) :
    ∀ lote : Lote,
    ((wave.foldl (processarItem outcome) lote).progresso.total = lote.progresso.total ∧
     (wave.foldl (processarItem outcome) lote).progresso.processados
       = lote.progresso.processados + wave.length ∧
     (wave.foldl (processarItem outcome) lote).progresso.sucesso
         + (wave.foldl (processarItem outcome) lote).progresso.erro
       = lote.progresso.sucesso + lote.progresso.erro + wave.length) := by
  induction wave with
  | nil => intro lote; simp
  | cons item resto ih =>
    intro lote
    have hi := processarItem_contadores outcome lote item
    have hr := ih (processarItem outcome lote item)
    simp only [List.foldl_cons, List.length_cons]
    exact ⟨by omega, by omega, by omega⟩

theorem processarOndas_contadores (outcome : ItemLote → ResultadoSimulacao) (n : Nat) :
    ∀ (dados : List ItemLote) (lote : Lote), dados.length = n →
    ((processarOndas outcome dados lote).progresso.total = lote.progresso.total ∧
     (processarOndas outcome dados lote).progresso.processados
       = lote.progresso.processados + dados.length ∧
     (processarOndas outcome dados lote).progresso.sucesso
         + (processarOndas outcome dados lote).progresso.erro
       = lote.progresso.sucesso + lote.progresso.erro + dados.length) := by
  induction n using Nat.strong_induction_on with
  | _ n ih =>
    intro dados lote hn
    match dados with
    | [] => simp [processarOndas]
    | item :: resto =>
      rw [processarOndas]
      have hlen : ((item :: resto).drop 10).length < n := by
        subst hn; simp; omega
      have hw := processarFoldl_contadores outcome ((item :: resto).take 10) lote
      have hr := ih ((item :: resto).drop 10).length hlen ((item :: resto).drop 10)
        (((item :: resto).take 10).foldl (processarItem outcome) lote) rfl
      have htk : ((item :: resto).take 10).length + ((item :: resto).drop 10).length
          = (item :: resto).length := by
        simp; omega
      exact ⟨by omega, by omega, by omega⟩

/-- Claim C8: for every input list (empty included, and lists spanning several
ten-item waves) and every behaviour of the external lookups, the finished
batch job reports status done with `processados = sucesso + erro` and
`processados = total = dados.length`. -/
theorem claim8_processarLote_conclusao (dados : List ItemLote)
    (outcome : ItemLote → ResultadoSimulacao) :
    (processarLote dados outcome).status = "concluido" ∧
    (processarLote dados outcome).progresso.processados
      = (processarLote dados outcome).progresso.sucesso
        + (processarLote dados outcome).progresso.erro ∧
    (processarLote dados outcome).progresso.processados
      = (processarLote dados outcome).progresso.total ∧
    (processarLote dados outcome).progresso.total = dados.length := by
  have h := processarOndas_contadores outcome dados.length dados
    { status := "processando"
      progresso := { total := dados.length, processados := 0, sucesso := 0, erro := 0 }
      resultados := [] } rfl
  simp only [processarLote] at h ⊢
  refine ⟨trivial, ?_, ?_, ?_⟩ <;> simp_all

/-- Claim C5: when the environment id is present and the document write
succeeds (a store write failure is the one outcome the design treats as
failing the whole operation), the store record at the found index is removed
for every directory outcome, the operation reports success for every
directory outcome, and a directory-removal failure yields success with the
error message attached as a warning. -/
theorem claim5_deleteAmbiente_remocao (db : Database) (ambienteId : String)
    (dir : DirRemoveOutcome) (i : Nat)
    (hfind : db.ambientes.findIdx? (fun a => a.id == ambienteId) = some i) :
    (deleteAmbiente db ambienteId true dir).2.ambientes = db.ambientes.eraseIdx i ∧
    (deleteAmbiente db ambienteId true dir).1.success = true ∧
    (∀ msg, dir = DirRemoveOutcome.failed msg →
      (deleteAmbiente db ambienteId true dir).1.warning = some msg) := by
  simp only [deleteAmbiente, hfind]
  cases dir <;> simp

/-- Witness for C5: deleting the only environment of a concrete store while
the directory removal throws still succeeds, removes the record, and reports
the thrown message as a warning. -/
theorem claim5_deleteAmbiente_remocao_witness :
    (deleteAmbiente { ambientes := [ambExemplo], perfis := [], logins := [] } "ambiente-1" true
        (DirRemoveOutcome.failed "EPERM")).2.ambientes = [] ∧
    (deleteAmbiente { ambientes := [ambExemplo], perfis := [], logins := [] } "ambiente-1" true
        (DirRemoveOutcome.failed "EPERM")).1.success = true ∧
    (deleteAmbiente { ambientes := [ambExemplo], perfis := [], logins := [] } "ambiente-1" true
        (DirRemoveOutcome.failed "EPERM")).1.warning = some "EPERM" := by
  have h := claim5_deleteAmbiente_remocao
    { ambientes := [ambExemplo], perfis := [], logins := [] } "ambiente-1"
    (DirRemoveOutcome.failed "EPERM") 0 (by decide)
  exact ⟨h.1, h.2.1, h.2.2 "EPERM" rfl⟩

/-- Claim C9: provisioning discards the caller's pipeline reference — the
result is one and the same for any two supplied pipeline values, a successful
call stores `none` as the new record's pipeline — and `updateAmbiente` is the
call that can later set a non-null pipeline value. -/
theorem claim9_createAmbiente_pipeline_nulo (db : Database) (nome : String) (porta : Nat)
    (username password : String) (bancos : List String) (pipeline pipeline' : Option String)
    (now : Nat) (agora : String) :
    createAmbiente db nome porta username password bancos pipeline now agora
      = createAmbiente db nome porta username password bancos pipeline' now agora ∧
    ((createAmbiente db nome porta username password bancos pipeline now agora).1.success = true →
      ∃ novo, (createAmbiente db nome porta username password bancos pipeline now agora).2.ambientes
          = db.ambientes ++ [novo] ∧ novo.pipelineKentro = none) ∧
    (∀ (db₂ : Database) (ambienteId v : String) (agora₂ : String), v ≠ "" →
      (updateAmbiente db₂ ambienteId
          { nome := none, pipelineKentro := some (some v), ativo := none } agora₂).1.success = true →
      ∃ a, (updateAmbiente db₂ ambienteId
          { nome := none, pipelineKentro := some (some v), ativo := none } agora₂).1.ambiente
            = some a ∧ a.pipelineKentro = some v) := by
  refine ⟨rfl, ?_, ?_⟩
  · intro hs
    simp only [createAmbiente] at hs ⊢
    cases hp : db.ambientes.find? (fun a => a.porta == porta) with
    | some a => simp [hp] at hs
    | none =>
      cases hn : db.ambientes.find? (fun a => a.nome == nome) with
      | some a => simp [hp, hn] at hs
      | none => simp [hp, hn]
  · intro db₂ ambienteId v agora₂ hv hs
    simp only [updateAmbiente] at hs ⊢
    cases hf : db₂.ambientes.find? (fun a => a.id == ambienteId) with
    | none => simp [hf] at hs
    | some ambiente => simp [hf, jsOrNull, hv]

/-- Witness for C9: a concrete successful creation stores a null pipeline even
though the caller supplied one, and a later concrete `updateAmbiente` sets it. -/
theorem claim9_createAmbiente_pipeline_nulo_witness :
    (∃ novo, (createAmbiente { ambientes := [], perfis := [], logins := [] } "QA" 5001 "admin"
        "senha123" ["v8"] (some "pipe-7") 1 "t1").2.ambientes = [] ++ [novo] ∧
      novo.pipelineKentro = none) ∧
    (∃ a, (updateAmbiente { ambientes := [ambExemplo], perfis := [], logins := [] } "ambiente-1"
        { nome := none, pipelineKentro := some (some "pipe-7"), ativo := none } "t2").1.ambiente
          = some a ∧ a.pipelineKentro = some "pipe-7") := by
  have h := claim9_createAmbiente_pipeline_nulo
    { ambientes := [], perfis := [], logins := [] } "QA" 5001 "admin" "senha123" ["v8"]
    (some "pipe-7") none 1 "t1"
  exact ⟨h.2.1 rfl,
    h.2.2 { ambientes := [ambExemplo], perfis := [], logins := [] } "ambiente-1" "pipe-7" "t2"
      (by decide) rfl⟩

/-- Counterexample to C7 as stated: two environments provisioned with the
same password "senha" receive the very same stored hash — the stored secret
is not salted. Both creations succeed on a concrete store, and the two
stored records carry equal `passwordHash` fields. -/
theorem claim7_counterexample_sem_sal :
    (createAmbiente { ambientes := [], perfis := [], logins := [] } "A" 5001 "u1" "senha"
        [] none 1 "t1").1.success = true ∧
    (createAmbiente (createAmbiente { ambientes := [], perfis := [], logins := [] } "A" 5001
        "u1" "senha" [] none 1 "t1").2 "B" 5002 "u2" "senha" [] none 2 "t2").1.success = true ∧
    ((createAmbiente { ambientes := [], perfis := [], logins := [] } "A" 5001 "u1" "senha"
        [] none 1 "t1").2.ambientes.getD 0 ambExemplo).passwordHash
      = ((createAmbiente (createAmbiente { ambientes := [], perfis := [], logins := [] } "A" 5001
          "u1" "senha" [] none 1 "t1").2 "B" 5002 "u2" "senha" [] none 2 "t2").2.ambientes.getD 1
            ambExemplo).passwordHash := by
  refine ⟨rfl, ?_, ?_⟩ <;> simp [createAmbiente]

/-- Claim C7 (amended): the stored owner secret is the unsalted SHA-256 hex
digest of the password alone: every successful provisioning stores exactly
`hashPassword password`, a deterministic function of the password, so two
environments provisioned with the same password receive identical stored
hashes and the hash is reproducible from the password by anyone. -/
theorem claim7_hash_sem_sal (db : Database) (nome : String) (porta : Nat)
    (username password : String) (bancos : List String) (pipeline : Option String)
    (now : Nat) (agora : String)
    (h : (createAmbiente db nome porta username password bancos pipeline now agora).1.success = true) :
    ((createAmbiente db nome porta username password bancos pipeline now agora).2.ambientes.getLast?).map
        Ambiente.passwordHash = some (hashPassword password) := by
  simp only [createAmbiente] at h ⊢
  cases hp : db.ambientes.find? (fun a => a.porta == porta) with
  | some a => simp [hp] at h
  | none =>
    cases hn : db.ambientes.find? (fun a => a.nome == nome) with
    | some a => simp [hp, hn] at h
    | none => simp [hp, hn]

/-- Witness for C7 (amended): a concrete successful creation stores the
SHA-256 of its password. -/
theorem claim7_hash_sem_sal_witness :
    ((createAmbiente { ambientes := [], perfis := [], logins := [] } "A" 5001 "u1" "senha"
        [] none 1 "t1").2.ambientes.getLast?).map Ambiente.passwordHash
      = some (hashPassword "senha") :=
  claim7_hash_sem_sal { ambientes := [], perfis := [], logins := [] } "A" 5001 "u1" "senha"
    [] none 1 "t1" rfl

/-- Claim C1: a provisioning request whose port or name is already used by
any existing record (active or inactive) fails — the conflict result carries
an error and the persisted document is exactly the one before the call — and
a conflict-free request succeeds and appends exactly one record carrying the
requested port and name. Consequently provisioning preserves pairwise port
distinctness of the store. -/
theorem claim1_createAmbiente_conflito (db : Database) (nome : String) (porta : Nat)
    (username password : String) (bancos : List String) (pipeline : Option String)
    (now : Nat) (agora : String) :
    (((∃ a ∈ db.ambientes, a.porta = porta) ∨ (∃ a ∈ db.ambientes, a.nome = nome)) →
      (createAmbiente db nome porta username password bancos pipeline now agora).1.success = false ∧
      ((createAmbiente db nome porta username password bancos pipeline now agora).1.error.isSome
        = true) ∧
      (createAmbiente db nome porta username password bancos pipeline now agora).2 = db) ∧
    ((∀ a ∈ db.ambientes, a.porta ≠ porta ∧ a.nome ≠ nome) →
      (createAmbiente db nome porta username password bancos pipeline now agora).1.success = true ∧
      ∃ novo, (createAmbiente db nome porta username password bancos pipeline now agora).2.ambientes
          = db.ambientes ++ [novo] ∧ novo.porta = porta ∧ novo.nome = nome) ∧
    (List.Pairwise (fun a b => a.porta ≠ b.porta) db.ambientes →
      List.Pairwise (fun a b => a.porta ≠ b.porta)
        (createAmbiente db nome porta username password bancos pipeline now agora).2.ambientes) := by
  refine ⟨?_, ?_, ?_⟩
  · rintro (⟨a, ha, hp⟩ | ⟨a, ha, hn⟩)
    · have hsome : (db.ambientes.find? (fun a => a.porta == porta)).isSome := by
        rw [List.find?_isSome]
        exact ⟨a, ha, by simp [hp]⟩
      cases hf : db.ambientes.find? (fun a => a.porta == porta) with
      | none => simp [hf] at hsome
      | some b => simp [createAmbiente, hf]
    · cases hf : db.ambientes.find? (fun a => a.porta == porta) with
      | some b => simp [createAmbiente, hf]
      | none =>
        have hsome : (db.ambientes.find? (fun a => a.nome == nome)).isSome := by
          rw [List.find?_isSome]
          exact ⟨a, ha, by simp [hn]⟩
        cases hg : db.ambientes.find? (fun a => a.nome == nome) with
        | none => simp [hg] at hsome
        | some b => simp [createAmbiente, hf, hg]
  · intro hlivre
    have hf : db.ambientes.find? (fun a => a.porta == porta) = none := by
      rw [List.find?_eq_none]
      intro a ha
      simp [(hlivre a ha).1]
    have hg : db.ambientes.find? (fun a => a.nome == nome) = none := by
      rw [List.find?_eq_none]
      intro a ha
      simp [(hlivre a ha).2]
    refine ⟨by simp [createAmbiente, hf, hg], ?_⟩
    simp only [createAmbiente, hf, hg]
    exact ⟨_, rfl, rfl, rfl⟩
  · intro hpw
    cases hf : db.ambientes.find? (fun a => a.porta == porta) with
    | some b => simpa [createAmbiente, hf] using hpw
    | none =>
      cases hg : db.ambientes.find? (fun a => a.nome == nome) with
      | some b => simpa [createAmbiente, hf, hg] using hpw
      | none =>
        have hnp : ∀ a ∈ db.ambientes, a.porta ≠ porta := by
          intro a ha
          have := List.find?_eq_none.mp hf a ha
          simpa using this
        simp only [createAmbiente, hf, hg]
        rw [List.pairwise_append]
        exact ⟨hpw, by simp, by intro a ha b hb; simp at hb; subst hb; exact hnp a ha⟩

/-- Witness for C1: on a concrete one-record store, reusing the record's port
fails and leaves the store unchanged, while a fresh port and name succeed and
append one record with them; the concrete store's pairwise port distinctness
is preserved. -/
theorem claim1_createAmbiente_conflito_witness :
    ((createAmbiente { ambientes := [ambExemplo], perfis := [], logins := [] } "Nova" 5001 "u"
        "senha" [] none 1 "t1").1.success = false ∧
      (createAmbiente { ambientes := [ambExemplo], perfis := [], logins := [] } "Nova" 5001 "u"
        "senha" [] none 1 "t1").1.error.isSome = true ∧
      (createAmbiente { ambientes := [ambExemplo], perfis := [], logins := [] } "Nova" 5001 "u"
        "senha" [] none 1 "t1").2
        = { ambientes := [ambExemplo], perfis := [], logins := [] }) ∧
    ((createAmbiente { ambientes := [ambExemplo], perfis := [], logins := [] } "Nova" 5002 "u"
        "senha" [] none 1 "t1").1.success = true ∧
      ∃ novo, (createAmbiente { ambientes := [ambExemplo], perfis := [], logins := [] } "Nova" 5002
          "u" "senha" [] none 1 "t1").2.ambientes = [ambExemplo] ++ [novo] ∧
        novo.porta = 5002 ∧ novo.nome = "Nova") := by
  constructor
  · exact (claim1_createAmbiente_conflito { ambientes := [ambExemplo], perfis := [], logins := [] }
      "Nova" 5001 "u" "senha" [] none 1 "t1").1
      (Or.inl ⟨ambExemplo, by simp, by simp [ambExemplo]⟩)
  · have h := (claim1_createAmbiente_conflito
      { ambientes := [ambExemplo], perfis := [], logins := [] }
      "Nova" 5002 "u" "senha" [] none 1 "t1").2.1
      (by intro a ha; simp at ha; subst ha; simp [ambExemplo])
    exact ⟨h.1, h.2⟩

/-- Counterexample to C4 as stated: a concrete login whose username and
password are correct and whose record is active, whose referenced environment
exists and is inactive — but whose referenced profile is also inactive. The
profile check precedes the environment check, so authentication fails with
the profile-inactive kind, not the environment-inactive kind the claim
demands for every such login. -/
theorem claim4_counterexample_perfil_inativo :
    (authenticateLogin
        { ambientes := [{ ambExemplo with ativo := false }],
          perfis := [{ perfilExemplo with ativo := false }],
          logins := [loginExemplo] } "maria" "senha123").errorCode = some "PERFIL_INACTIVE" ∧
    some "PERFIL_INACTIVE" ≠ some "AMBIENTE_INACTIVE" := by
  constructor
  · simp [authenticateLogin, loginExemplo, perfilExemplo, jsToLower, jsTrim, verifyPassword]
  · simp

/-- Claim C4 (amended): when the username lookup finds an active login with a
correct password, every profile the login references resolves to an active
one (or to none at all), and the referenced environment exists but is
inactive, authentication fails with the environment-inactive kind — distinct
from the kinds for user-not-found, user-inactive, wrong-password,
environment-missing and profile-inactive. -/
theorem claim4_authenticateLogin_ambiente_inativo (db : Database) (username password : String)
    (login : Login) (ambiente : Ambiente)
    (hfind : db.logins.find?
        (fun l => l.username != "" &&
          jsToLower l.username == (if username == "" then "" else jsToLower (jsTrim username)))
        = some login)
    (hativo : login.ativo = true)
    (hsenha : verifyPassword password login.passwordHash = true)
    (hperfil : ∀ p : Perfil,
      (match login.perfilId with
       | some pid => if pid != "" then db.perfis.find? (fun q => q.id == pid) else none
       | none => none) = some p → p.ativo = true)
    (hamb : db.ambientes.find? (fun a => a.id == login.ambienteId) = some ambiente)
    (hinativo : ambiente.ativo = false) :
    (authenticateLogin db username password).success = false ∧
    (authenticateLogin db username password).errorCode = some "AMBIENTE_INACTIVE" ∧
    ("AMBIENTE_INACTIVE" : String) ∉
      ["USER_NOT_FOUND", "USER_INACTIVE", "INVALID_PASSWORD", "AMBIENTE_NOT_FOUND",
       "PERFIL_INACTIVE"] := by
  have hmain : (authenticateLogin db username password).success = false ∧
      (authenticateLogin db username password).errorCode = some "AMBIENTE_INACTIVE" := by
    cases hpid : login.perfilId with
    | none =>
      simp only [authenticateLogin]
      rw [hfind]
      simp [hativo, hsenha, hpid, hamb, hinativo]
    | some pid =>
      by_cases hpe : pid = ""
      · simp only [authenticateLogin]
        rw [hfind]
        simp [hativo, hsenha, hpid, hpe, hamb, hinativo]
      · cases hq : db.perfis.find? (fun q : Perfil => q.id == pid) with
        | none =>
          simp only [authenticateLogin]
          rw [hfind]
          simp [hativo, hsenha, hpid, hpe, hq, hamb, hinativo]
        | some p =>
          have hp : p.ativo = true := hperfil p (by rw [hpid]; simp [hpe, hq])
          simp only [authenticateLogin]
          rw [hfind]
          simp [hativo, hsenha, hpid, hpe, hq, hp, hamb, hinativo]
  exact ⟨hmain.1, hmain.2, by simp⟩

/-- Witness for C4 (amended): a concrete store in which the login is active
with a correct password, the referenced profile is active, and the referenced
environment is inactive; authentication fails with the environment-inactive
kind. -/
theorem claim4_authenticateLogin_ambiente_inativo_witness :
    (authenticateLogin
        { ambientes := [{ ambExemplo with ativo := false }],
          perfis := [perfilExemplo],
          logins := [loginExemplo] } "maria" "senha123").success = false ∧
    (authenticateLogin
        { ambientes := [{ ambExemplo with ativo := false }],
          perfis := [perfilExemplo],
          logins := [loginExemplo] } "maria" "senha123").errorCode = some "AMBIENTE_INACTIVE" := by
  have h := claim4_authenticateLogin_ambiente_inativo
    { ambientes := [{ ambExemplo with ativo := false }],
      perfis := [perfilExemplo],
      logins := [loginExemplo] } "maria" "senha123" loginExemplo { ambExemplo with ativo := false }
    rfl rfl (by simp [verifyPassword, loginExemplo])
    (by intro p hp
        simp only [loginExemplo] at hp
        simp only [perfilExemplo] at hp ⊢
        simp at hp
        subst hp
        rfl)
    rfl rfl
  exact ⟨h.1, h.2.1⟩

theorem updateFirst_length (p : α → Bool) (f : α → α) (l : List α) :
    (updateFirst p f l).length = l.length := by
  induction l with
  | nil => rfl
  | cons x xs ih =>
    simp only [updateFirst]
    split <;> simp [ih]

theorem updateFirst_get (p : α → Bool) (f : α → α) (l : List α) :
    ∀ (i : Nat) (h : i < l.length) (h' : i < (updateFirst p f l).length),
      (updateFirst p f l).get ⟨i, h'⟩ = l.get ⟨i, h⟩ ∨
      (updateFirst p f l).get ⟨i, h'⟩ = f (l.get ⟨i, h⟩) := by
  induction l with
  | nil => intro i h; simp at h
  | cons x xs ih =>
    intro i h h'
    by_cases hp : p x = true
    · cases i with
      | zero => right; simp [updateFirst, hp]
      | succ j => left; simp [updateFirst, hp]
    · cases i with
      | zero => left; simp [updateFirst, hp]
      | succ j =>
        have h1 : j < xs.length := by simpa using h
        have h2 : j < (updateFirst p f xs).length := by
          simpa [updateFirst, hp] using h'
        have hj := ih j h1 h2
        rcases hj with hj | hj
        · left; simpa [updateFirst, hp] using hj
        · right; simpa [updateFirst, hp] using hj

theorem updateFirst_get_first_match (p : α → Bool) (f : α → α) :
    ∀ (l : List α) (i : Nat) (h : i < l.length),
      (∀ j (hj : j < i), p (l.get ⟨j, Nat.lt_trans hj h⟩) = false) →
      p (l.get ⟨i, h⟩) = true →
      ∀ h' : i < (updateFirst p f l).length,
        (updateFirst p f l).get ⟨i, h'⟩ = f (l.get ⟨i, h⟩) := by
  intro l
  induction l with
  | nil => intro i h; simp at h
  | cons x xs ih =>
    intro i h hprev hcur h'
    cases i with
    | zero =>
      have hx : p x = true := by simpa using hcur
      simp [updateFirst, hx]
    | succ j =>
      have hx : p x = false := by
        have := hprev 0 (Nat.succ_pos j)
        simpa using this
      have h1 : j < xs.length := by simpa using h
      have hprev' : ∀ k (hk : k < j), p (xs.get ⟨k, Nat.lt_trans hk h1⟩) = false := by
        intro k hk
        have := hprev (k + 1) (by omega)
        simpa using this
      have hcur' : p (xs.get ⟨j, h1⟩) = true := by simpa using hcur
      have h2 : j < (updateFirst p f xs).length := by
        simpa [updateFirst, hx] using h'
      have := ih j h1 hprev' hcur' h2
      simpa [updateFirst, hx] using this

theorem findIdx?_some_charact (p : α → Bool) :
    ∀ (l : List α) (i : Nat), l.findIdx? p = some i →
      ∃ h : i < l.length, p (l.get ⟨i, h⟩) = true ∧
        ∀ j (hj : j < i), p (l.get ⟨j, Nat.lt_trans hj h⟩) = false := by
  intro l
  induction l with
  | nil => intro i h; simp [List.findIdx?] at h
  | cons x xs ih =>
    intro i hfi
    rw [List.findIdx?_cons] at hfi
    by_cases hx : p x = true
    · simp only [hx, if_true] at hfi
      cases hfi
      exact ⟨Nat.succ_pos _, hx, by intro j hj; omega⟩
    · simp only [hx, Bool.false_eq_true, if_false] at hfi
      cases i with
      | zero =>
        exfalso
        cases hfk : xs.findIdx? p <;> simp [hfk] at hfi
      | succ j =>
        have hj : xs.findIdx? p = some j := by
          cases hfk : xs.findIdx? p <;> simp [hfk] at hfi <;> simp [hfi]
        obtain ⟨h1, hcur, hprev⟩ := ih j hj
        refine ⟨by simpa using Nat.succ_lt_succ h1, by simpa using hcur, ?_⟩
        intro k hk
        cases k with
        | zero => simpa using hx
        | succ m =>
          have := hprev m (by omega)
          simpa using this

theorem findIdx?_congr_pointwise (p : α → Bool) :
    ∀ (l l' : List α), l.length ≤ l'.length →
      (∀ j (hj : j < l.length) (hj' : j < l'.length), p (l'.get ⟨j, hj'⟩) = p (l.get ⟨j, hj⟩)) →
      ∀ i, l.findIdx? p = some i → l'.findIdx? p = some i := by
  intro l
  induction l with
  | nil => intro l' _ _ i h; simp [List.findIdx?] at h
  | cons x xs ih =>
    intro l' hlen hpt i hfi
    match l' with
    | [] => simp at hlen
    | y :: ys =>
      have hy : p y = p x := by
        have := hpt 0 (Nat.succ_pos _) (Nat.succ_pos _)
        simpa using this
      rw [List.findIdx?_cons] at hfi ⊢
      rw [hy]
      by_cases hx : p x = true
      · simpa [hx] using hfi
      · simp only [hx, Bool.false_eq_true, if_false] at hfi ⊢
        cases i with
        | zero =>
          exfalso
          cases hfk : xs.findIdx? p <;> simp [hfk] at hfi
        | succ j =>
          have hj : xs.findIdx? p = some j := by
            cases hfk : xs.findIdx? p <;> simp [hfk] at hfi <;> simp [hfi]
          have hys : ys.findIdx? p = some j := by
            refine ih ys (by simpa using hlen) ?_ j hj
            intro k hk hk'
            have := hpt (k + 1) (by simpa using Nat.succ_lt_succ hk)
              (by simpa using Nat.succ_lt_succ hk')
            simpa using this
          simp [hys]

theorem sincStep_ambientes_skip (now : Nat) (agora : String) (st : SincState)
    (d : AmbienteDetectado) (h7 : (d.porta == 7000) = true) :
    (sincStep now agora st d).ambientes = st.ambientes := by
  simp [sincStep, h7]

theorem sincStep_ambientes_update (now : Nat) (agora : String) (st : SincState)
    (d : AmbienteDetectado) (amb : Ambiente) (h7 : (d.porta == 7000) = false)
    (hf : st.ambientes.find? (fun a => a.porta == d.porta) = some amb) :
    (sincStep now agora st d).ambientes
      = updateFirst (fun a => a.porta == d.porta) (aplicarDetectado agora d) st.ambientes := by
  simp only [sincStep, h7, Bool.false_eq_true, if_false, hf]
  split <;> rfl

theorem sincStep_ambientes_append (now : Nat) (agora : String) (st : SincState)
    (d : AmbienteDetectado) (h7 : (d.porta == 7000) = false)
    (hf : st.ambientes.find? (fun a => a.porta == d.porta) = none) :
    ∃ novo : Ambiente, novo.ativo = true ∧ novo.porta = d.porta ∧
      (sincStep now agora st d).ambientes = st.ambientes ++ [novo] := by
  simp only [sincStep, h7, Bool.false_eq_true, if_false, hf]
  exact ⟨_, rfl, rfl, rfl⟩

theorem sincStep_preserva (now : Nat) (agora : String) (st : SincState) (d : AmbienteDetectado) :
    st.ambientes.length ≤ (sincStep now agora st d).ambientes.length ∧
    ∀ i (h : i < st.ambientes.length) (h' : i < (sincStep now agora st d).ambientes.length),
      ((sincStep now agora st d).ambientes.get ⟨i, h'⟩).id = (st.ambientes.get ⟨i, h⟩).id ∧
      ((sincStep now agora st d).ambientes.get ⟨i, h'⟩).porta = (st.ambientes.get ⟨i, h⟩).porta ∧
      ((st.ambientes.get ⟨i, h⟩).bancosPermitidos ≠ [] →
        ((sincStep now agora st d).ambientes.get ⟨i, h'⟩).bancosPermitidos
          = (st.ambientes.get ⟨i, h⟩).bancosPermitidos) ∧
      ((st.ambientes.get ⟨i, h⟩).ativo = true →
        ((sincStep now agora st d).ambientes.get ⟨i, h'⟩).ativo = true) := by
  by_cases h7 : (d.porta == 7000) = true
  · rw [sincStep_ambientes_skip now agora st d h7]
    exact ⟨Nat.le_refl _, fun i h h' => ⟨rfl, rfl, fun _ => rfl, fun hx => hx⟩⟩
  · rw [Bool.not_eq_true] at h7
    cases hf : st.ambientes.find? (fun a => a.porta == d.porta) with
    | some amb =>
      rw [sincStep_ambientes_update now agora st d amb h7 hf]
      refine ⟨by rw [updateFirst_length], ?_⟩
      intro i h h'
      have h'' : i < st.ambientes.length := by rwa [updateFirst_length] at h'
      rcases updateFirst_get _ _ st.ambientes i h h' with heq | heq
      · rw [heq]
        exact ⟨rfl, rfl, fun _ => rfl, fun hx => hx⟩
      · rw [heq]
        refine ⟨rfl, rfl, ?_, fun _ => rfl⟩
        intro hne
        have hie : (st.ambientes.get ⟨i, h⟩).bancosPermitidos.isEmpty = false := by
          simpa [List.isEmpty_iff] using hne
        simp only [aplicarDetectado, hie, Bool.false_eq_true, if_false]
    | none =>
      obtain ⟨novo, _, _, heq⟩ := sincStep_ambientes_append now agora st d h7 hf
      rw [heq]
      refine ⟨by simp, ?_⟩
      intro i h h'
      rw [List.get_eq_getElem, List.getElem_append_left h]
      exact ⟨rfl, rfl, fun _ => rfl, fun hx => hx⟩

theorem sincFoldl_preserva (now : Nat) (agora : String) (detectados : List AmbienteDetectado) :
    ∀ st : SincState,
    st.ambientes.length ≤ (detectados.foldl (sincStep now agora) st).ambientes.length ∧
    ∀ i (h : i < st.ambientes.length)
      (h' : i < (detectados.foldl (sincStep now agora) st).ambientes.length),
      ((detectados.foldl (sincStep now agora) st).ambientes.get ⟨i, h'⟩).id
        = (st.ambientes.get ⟨i, h⟩).id ∧
      ((detectados.foldl (sincStep now agora) st).ambientes.get ⟨i, h'⟩).porta
        = (st.ambientes.get ⟨i, h⟩).porta ∧
      ((st.ambientes.get ⟨i, h⟩).bancosPermitidos ≠ [] →
        ((detectados.foldl (sincStep now agora) st).ambientes.get ⟨i, h'⟩).bancosPermitidos
          = (st.ambientes.get ⟨i, h⟩).bancosPermitidos) ∧
      ((st.ambientes.get ⟨i, h⟩).ativo = true →
        ((detectados.foldl (sincStep now agora) st).ambientes.get ⟨i, h'⟩).ativo = true) := by
  induction detectados with
  | nil =>
    intro st
    exact ⟨Nat.le_refl _, fun i h h' => ⟨rfl, rfl, fun _ => rfl, fun hx => hx⟩⟩
  | cons d resto ih =>
    intro st
    obtain ⟨hl1, hp1⟩ := sincStep_preserva now agora st d
    obtain ⟨hl2, hp2⟩ := ih (sincStep now agora st d)
    rw [List.foldl_cons]
    refine ⟨Nat.le_trans hl1 hl2, ?_⟩
    intro i h h'
    have hmid : i < (sincStep now agora st d).ambientes.length := Nat.lt_of_lt_of_le h hl1
    obtain ⟨hid1, hporta1, hbancos1, hativo1⟩ := hp1 i h hmid
    obtain ⟨hid2, hporta2, hbancos2, hativo2⟩ := hp2 i hmid h'
    refine ⟨hid2.trans hid1, hporta2.trans hporta1, ?_, fun hx => hativo2 (hativo1 hx)⟩
    intro hne
    have hb1 := hbancos1 hne
    have hb2 := hbancos2 (by rw [hb1]; exact hne)
    rw [hb2, hb1]

theorem marcarInativos_ambientes (detectados : List AmbienteDetectado) (st : SincState) :
    (marcarInativos detectados st).ambientes
      = st.ambientes.map (fun ambiente =>
          if !(detectados.any (fun a => a.porta == ambiente.porta)) && ambiente.porta != 4000
          then { ambiente with ativo := false } else ambiente) := by
  have key : ∀ (l : List Ambiente) (acc : SincState),
      (l.foldl
        (fun acc ambiente =>
          let existeNoSistema := detectados.any (fun a => a.porta == ambiente.porta)
          if !existeNoSistema && ambiente.porta != 4000 then
            { ambientes := acc.ambientes ++ [{ ambiente with ativo := false }]
              resultados := { acc.resultados with
                existentes := acc.resultados.existentes ++
                  [{ id := ambiente.id, nome := ambiente.nome, porta := ambiente.porta,
                     status := "marcado como inativo (pasta não encontrada)" }] }
              : SincState }
          else { acc with ambientes := acc.ambientes ++ [ambiente] }) acc).ambientes
      = acc.ambientes ++ l.map (fun ambiente =>
          if !(detectados.any (fun a => a.porta == ambiente.porta)) && ambiente.porta != 4000
          then { ambiente with ativo := false } else ambiente) := by
    intro l
    induction l with
    | nil => intro acc; simp
    | cons x xs ihx =>
      intro acc
      rw [List.foldl_cons, List.map_cons]
      by_cases hc : (!(detectados.any (fun a => a.porta == x.porta)) && x.porta != 4000) = true
      · rw [ihx]
        simp [hc]
      · rw [ihx]
        rw [Bool.not_eq_true] at hc
        simp [hc]
  rw [marcarInativos, key]
  simp

/-- Claim C3: reconciliation never rewrites a non-empty permitted-integrations
set — for every store, every detection result and every record whose
`bancosPermitidos` is non-empty before the pass, the record at the same
position afterwards has the same id and the same `bancosPermitidos`,
whatever the detector inferred for its port. -/
theorem claim3_sincronizar_preserva_bancos (db : Database) (detectados : List AmbienteDetectado)
    (now : Nat) (agora : String) (i : Nat) (h : i < db.ambientes.length)
    (hne : (db.ambientes.get ⟨i, h⟩).bancosPermitidos ≠ []) :
    ∃ a : Ambiente,
      (sincronizarAmbientesExistentes db detectados now agora).2.ambientes.get? i = some a ∧
      a.bancosPermitidos = (db.ambientes.get ⟨i, h⟩).bancosPermitidos ∧
      a.id = (db.ambientes.get ⟨i, h⟩).id := by
  obtain ⟨hlen, hpt⟩ := sincFoldl_preserva now agora detectados
    { ambientes := db.ambientes, resultados := ⟨[], [], []⟩ }
  simp only [sincronizarAmbientesExistentes]
  rw [marcarInativos_ambientes]
  have hmid : i < (detectados.foldl (sincStep now agora)
      { ambientes := db.ambientes, resultados := ⟨[], [], []⟩ }).ambientes.length :=
    Nat.lt_of_lt_of_le h hlen
  obtain ⟨hid, hporta, hbancos, hativo⟩ := hpt i h hmid
  have hmap : i < ((detectados.foldl (sincStep now agora)
      { ambientes := db.ambientes, resultados := ⟨[], [], []⟩ }).ambientes.map
        (fun ambiente =>
          if !(detectados.any (fun a => a.porta == ambiente.porta)) && ambiente.porta != 4000
          then { ambiente with ativo := false } else ambiente)).length := by
    simpa using hmid
  refine ⟨_, List.get?_eq_get hmap, ?_, ?_⟩
  · rw [List.get_eq_getElem, List.getElem_map]
    have hb := hbancos hne
    rw [List.get_eq_getElem] at hb
    split <;> simpa using hb
  · rw [List.get_eq_getElem, List.getElem_map]
    rw [List.get_eq_getElem] at hid
    split <;> simpa using hid

/-- Witness for C3: reconciling a concrete one-record store (its permitted
set is the non-empty `["v8"]`) against an empty detection result leaves the
set and the id unchanged. -/
theorem claim3_sincronizar_preserva_bancos_witness :
    ((sincronizarAmbientesExistentes { ambientes := [ambExemplo], perfis := [], logins := [] }
        [] 1 "t1").2.ambientes.getD 0 ambExemplo).bancosPermitidos = ["v8"] ∧
    ((sincronizarAmbientesExistentes { ambientes := [ambExemplo], perfis := [], logins := [] }
        [] 1 "t1").2.ambientes.getD 0 ambExemplo).id = "ambiente-1" := by
  obtain ⟨a, hga, hb, hid⟩ := claim3_sincronizar_preserva_bancos
    { ambientes := [ambExemplo], perfis := [], logins := [] } [] 1 "t1" 0 (by decide)
    (by decide)
  rw [List.getD_eq_getElem?_getD]
  simp only [← List.get?_eq_getElem?, hga]
  exact ⟨hb, hid⟩

/-- Counterexample to C10 as stated: a concrete store holds an inactive
record with port 7000 and the detection result contains exactly that port,
yet after reconciliation the record is still inactive — the pass skips
detected entries with the reserved admin port 7000, so such a record's
active flag is not set to true. -/
theorem claim10_counterexample_porta_7000 :
    ((sincronizarAmbientesExistentes
        { ambientes := [{ ambExemplo with porta := 7000, ativo := false }],
          perfis := [], logins := [] }
        [{ nome := "Ambiente 7000", porta := 7000, path := "rota-7000.producao",
           bancosPermitidos := [] }]
        1 "t1").2.ambientes.map Ambiente.ativo) = [false] := by
  decide


/-- Claim C10 (amended): for every store and detection result, every detected
entry whose port is not the reserved 7000 forces the first store record
carrying that port (when one exists) to be active after reconciliation — an
operator's deliberate deactivation does not survive the pass for such ports;
a record with port 7000 can stay inactive. -/
theorem claim10_sincronizar_reativa (db : Database) (detectados : List AmbienteDetectado)
    (now : Nat) (agora : String) (d : AmbienteDetectado) (hd : d ∈ detectados)
    (h7 : d.porta ≠ 7000) (i : Nat)
    (hidx : db.ambientes.findIdx? (fun a => a.porta == d.porta) = some i) :
    ∃ a : Ambiente,
      (sincronizarAmbientesExistentes db detectados now agora).2.ambientes.get? i = some a ∧
      a.ativo = true ∧ a.porta = d.porta := by
  obtain ⟨l₁, l₂, hsplit⟩ := List.append_of_mem hd
  subst hsplit
  simp only [sincronizarAmbientesExistentes]
  rw [marcarInativos_ambientes, List.foldl_append, List.foldl_cons]
  set st0 : SincState := { ambientes := db.ambientes, resultados := ⟨[], [], []⟩ } with hst0
  set stA : SincState := l₁.foldl (sincStep now agora) st0 with hstA
  obtain ⟨hlenA, hptA⟩ := sincFoldl_preserva now agora l₁ st0
  have hidxA : stA.ambientes.findIdx? (fun a => a.porta == d.porta) = some i := by
    refine findIdx?_congr_pointwise _ db.ambientes _ hlenA ?_ i hidx
    intro j hj hj'
    obtain ⟨_, hporta, _, _⟩ := hptA j hj hj'
    rw [hporta]
  obtain ⟨hiA, hcurA, hprevA⟩ := findIdx?_some_charact _ _ i hidxA
  have h7' : (d.porta == 7000) = false := by simpa using h7
  have hfsome : (stA.ambientes.find? (fun a => a.porta == d.porta)).isSome := by
    rw [List.find?_isSome]
    exact ⟨_, List.get_mem stA.ambientes i hiA, hcurA⟩
  cases hfA : stA.ambientes.find? (fun a => a.porta == d.porta) with
  | none => rw [hfA] at hfsome; simp at hfsome
  | some amb =>
    have hambB : (sincStep now agora stA d).ambientes
        = updateFirst (fun a => a.porta == d.porta) (aplicarDetectado agora d) stA.ambientes :=
      sincStep_ambientes_update now agora stA d amb h7' hfA
    have hiB : i < (sincStep now agora stA d).ambientes.length := by
      rw [hambB, updateFirst_length]
      exact hiA
    have hgetB : (sincStep now agora stA d).ambientes.get ⟨i, hiB⟩
        = aplicarDetectado agora d (stA.ambientes.get ⟨i, hiA⟩) := by
      have hiU : i < (updateFirst (fun a => a.porta == d.porta)
          (aplicarDetectado agora d) stA.ambientes).length := by
        rw [updateFirst_length]
        exact hiA
      have h1 := updateFirst_get_first_match (fun a => a.porta == d.porta)
        (aplicarDetectado agora d) stA.ambientes i hiA hprevA hcurA hiU
      have hq : (sincStep now agora stA d).ambientes.get? i
          = some (aplicarDetectado agora d (stA.ambientes.get ⟨i, hiA⟩)) := by
        rw [hambB, List.get?_eq_get hiU, h1]
      rw [List.get?_eq_get hiB] at hq
      exact Option.some.inj hq
    have hativoB : ((sincStep now agora stA d).ambientes.get ⟨i, hiB⟩).ativo = true := by
      rw [hgetB]
      rfl
    have hportaB : ((sincStep now agora stA d).ambientes.get ⟨i, hiB⟩).porta = d.porta := by
      rw [hgetB]
      have : ((stA.ambientes.get ⟨i, hiA⟩).porta == d.porta) = true := hcurA
      simpa [aplicarDetectado] using this
    obtain ⟨hlenC, hptC⟩ := sincFoldl_preserva now agora l₂ (sincStep now agora stA d)
    have hiC : i < (l₂.foldl (sincStep now agora) (sincStep now agora stA d)).ambientes.length :=
      Nat.lt_of_lt_of_le hiB hlenC
    obtain ⟨hidC, hportaC, hbancosC, hativoC⟩ := hptC i hiB hiC
    have hativoF := hativoC hativoB
    have hportaF := hportaC.trans hportaB
    have hiM : i < ((l₂.foldl (sincStep now agora) (sincStep now agora stA d)).ambientes.map
        (fun ambiente =>
          if !((l₁ ++ d :: l₂).any (fun a => a.porta == ambiente.porta)) && ambiente.porta != 4000
          then { ambiente with ativo := false } else ambiente)).length := by
      simpa using hiC
    refine ⟨_, List.get?_eq_get hiM, ?_, ?_⟩
    · rw [List.get_eq_getElem, List.getElem_map]
      have hany : ((l₁ ++ d :: l₂).any (fun a =>
          a.porta == ((l₂.foldl (sincStep now agora)
            (sincStep now agora stA d)).ambientes.get ⟨i, hiC⟩).porta)) = true := by
        rw [List.any_eq_true]
        refine ⟨d, by simp, ?_⟩
        rw [List.get_eq_getElem] at hportaF
        simp [hportaF]
      rw [List.get_eq_getElem] at hativoF
      simp only [List.get_eq_getElem] at hany
      simp [hany, hativoF]
    · rw [List.get_eq_getElem, List.getElem_map]
      have hany : ((l₁ ++ d :: l₂).any (fun a =>
          a.porta == ((l₂.foldl (sincStep now agora)
            (sincStep now agora stA d)).ambientes.get ⟨i, hiC⟩).porta)) = true := by
        rw [List.any_eq_true]
        refine ⟨d, by simp, ?_⟩
        rw [List.get_eq_getElem] at hportaF
        simp [hportaF]
      rw [List.get_eq_getElem] at hportaF
      simp only [List.get_eq_getElem] at hany
      simp [hany, hportaF]

/-- Witness for C10 (amended): a concrete deactivated record with port 5001
is forced back to active by reconciling a detection result containing that
port. -/
theorem claim10_sincronizar_reativa_witness :
    ((sincronizarAmbientesExistentes
        { ambientes := [{ ambExemplo with ativo := false }], perfis := [], logins := [] }
        [{ nome := "Ambiente 5001", porta := 5001, path := "rota-5001.producao",
           bancosPermitidos := [] }]
        1 "t1").2.ambientes.getD 0 ambExemplo).ativo = true ∧
    ((sincronizarAmbientesExistentes
        { ambientes := [{ ambExemplo with ativo := false }], perfis := [], logins := [] }
        [{ nome := "Ambiente 5001", porta := 5001, path := "rota-5001.producao",
           bancosPermitidos := [] }]
        1 "t1").2.ambientes.getD 0 ambExemplo).porta = 5001 := by
  obtain ⟨a, hga, hat, hpt⟩ := claim10_sincronizar_reativa
    { ambientes := [{ ambExemplo with ativo := false }], perfis := [], logins := [] }
    [{ nome := "Ambiente 5001", porta := 5001, path := "rota-5001.producao",
       bancosPermitidos := [] }]
    1 "t1"
    { nome := "Ambiente 5001", porta := 5001, path := "rota-5001.producao",
      bancosPermitidos := [] }
    (by simp) (by decide) 0 (by decide)
  simp only [List.getD_eq_getElem?_getD, ← List.get?_eq_getElem?, hga, Option.getD_some]
  exact ⟨hat, hpt⟩

mutual
theorem semExcluidos_copiar_none : ∀ t : FsTree, semExcluidos (copiarDiretorio none t) = true
  | .file c => by simp [copiarDiretorio, semExcluidos]
  | .dir es => by
    simp only [copiarDiretorio, semExcluidos]
    exact semExcluidosEntradas_copiar_none es

theorem semExcluidosEntradas_copiar_none :
    ∀ es : List (String × FsTree), semExcluidosEntradas (copiarEntradas none es) = true
  | [] => by simp [copiarEntradas, semExcluidosEntradas]
  | (nome, t) :: resto => by
    by_cases h : deveIgnorar nome = true
    · simp only [copiarEntradas, h, if_true]
      exact semExcluidosEntradas_copiar_none resto
    · rw [Bool.not_eq_true] at h
      simp only [copiarEntradas, h, Bool.false_eq_true, if_false, semExcluidosEntradas]
      simp [h, semExcluidos_copiar_none t, semExcluidosEntradas_copiar_none resto]
end

theorem find_copiarEntradas (b : Option String) (nome : String)
    (hnome : deveIgnorar nome = false) :
    ∀ (es : List (String × FsTree)) (e : String × FsTree),
      es.find? (fun x => x.1 == nome) = some e →
      (copiarEntradas b es).find? (fun x => x.1 == nome)
        = some (e.1, copiarDiretorio b e.2) := by
  intro es
  induction es with
  | nil => intro e he; simp at he
  | cons x resto ih =>
    intro e he
    match x with
    | (n, t) =>
      rw [List.find?_cons] at he
      by_cases hb : (n == nome) = true
      · simp only [hb, if_true] at he
        cases he
        have hn : n = nome := by simpa using hb
        have hni : deveIgnorar n = false := by rw [hn]; exact hnome
        simp only [copiarEntradas, hni, Bool.false_eq_true, if_false]
        rw [List.find?_cons]
        simp [hb]
      · have hb' : (n == nome) = false := by simpa using hb
        simp only [hb', Bool.false_eq_true, if_false] at he
        by_cases hig : deveIgnorar n = true
        · simp only [copiarEntradas, hig, if_true]
          exact ih e he
        · rw [Bool.not_eq_true] at hig
          simp only [copiarEntradas, hig, Bool.false_eq_true, if_false]
          rw [List.find?_cons]
          simp only [hb', Bool.false_eq_true, if_false]
          exact ih e he

theorem lookupPath_copiar_none :
    ∀ (caminho : List String) (t : FsTree) (conteudo : String),
      (∀ n ∈ caminho, deveIgnorar n = false) →
      lookupPath t caminho = some (FsTree.file conteudo) →
      lookupPath (copiarDiretorio none t) caminho = some (FsTree.file conteudo) := by
  intro caminho
  induction caminho with
  | nil =>
    intro t conteudo _ hl
    simp only [lookupPath] at hl
    cases hl
    simp [copiarDiretorio, lookupPath]
  | cons nome resto ih =>
    intro t conteudo hcam hl
    match t with
    | .file c => simp [lookupPath] at hl
    | .dir es =>
      simp only [lookupPath] at hl
      cases hfe : es.find? (fun x => x.1 == nome) with
      | none => rw [hfe] at hl; simp at hl
      | some e =>
        rw [hfe] at hl
        have hnome : deveIgnorar nome = false := hcam nome (by simp)
        have hresto : ∀ n ∈ resto, deveIgnorar n = false := by
          intro n hn
          exact hcam n (by simp [hn])
        have hfind := find_copiarEntradas none nome hnome es e hfe
        simp only [copiarDiretorio, lookupPath, hfind]
        exact ih e.2 conteudo hresto hl

/-- Claim C6: for every source tree, the plain copy (no integration filter)
produces a destination in which no entry at any level bears an excluded name
(dependency caches, logs, version control, dotted names), while every file
reachable through non-excluded names is present with identical content. -/
theorem claim6_copiarDiretorio_exclusao (t : FsTree) :
    semExcluidos (copiarDiretorio none t) = true ∧
    ∀ (caminho : List String) (conteudo : String),
      (∀ n ∈ caminho, deveIgnorar n = false) →
      lookupPath t caminho = some (FsTree.file conteudo) →
      lookupPath (copiarDiretorio none t) caminho = some (FsTree.file conteudo) :=
  ⟨semExcluidos_copiar_none t,
   fun caminho conteudo hcam hl => lookupPath_copiar_none caminho t conteudo hcam hl⟩

/-- Witness for C6: copying a concrete tree holding a dependency-cache
directory, a log directory, a dotfile and a nested source file yields a tree
free of excluded entries in which the nested file is reachable with its
content intact. -/
theorem claim6_copiarDiretorio_exclusao_witness :
    semExcluidos (copiarDiretorio none (FsTree.dir
      [("node_modules", FsTree.dir [("dep.js", FsTree.file "dep")]),
       ("logs", FsTree.dir []),
       (".env", FsTree.file "secret"),
       ("sub", FsTree.dir [("app.js", FsTree.file "code")]),
       ("README.md", FsTree.file "docs")])) = true ∧
    lookupPath (copiarDiretorio none (FsTree.dir
      [("node_modules", FsTree.dir [("dep.js", FsTree.file "dep")]),
       ("logs", FsTree.dir []),
       (".env", FsTree.file "secret"),
       ("sub", FsTree.dir [("app.js", FsTree.file "code")]),
       ("README.md", FsTree.file "docs")])) ["sub", "app.js"]
      = some (FsTree.file "code") := by
  have h := claim6_copiarDiretorio_exclusao (FsTree.dir
      [("node_modules", FsTree.dir [("dep.js", FsTree.file "dep")]),
       ("logs", FsTree.dir []),
       (".env", FsTree.file "secret"),
       ("sub", FsTree.dir [("app.js", FsTree.file "code")]),
       ("README.md", FsTree.file "docs")])
  refine ⟨h.1, h.2 ["sub", "app.js"] "code" ?_ ?_⟩
  · intro n hn
    simp at hn
    rcases hn with hn | hn <;> subst hn <;> decide
  · simp [lookupPath]

theorem string_mk_data (s : String) : String.mk s.data = s := by
  cases s
  rfl

theorem string_data_append (a b : String) : (a ++ b).data = a.data ++ b.data := by
  cases a
  cases b
  rfl

theorem splitOnChar_ne_nil (c : Char) : ∀ l : List Char, splitOnChar c l ≠ []
  | [] => by simp [splitOnChar]
  | x :: xs => by
    by_cases h : x = c
    · simp [splitOnChar, h]
    · simp only [splitOnChar, h, if_false]
      cases hs : splitOnChar c xs <;> simp

theorem splitOnChar_not_mem (c : Char) :
    ∀ (l : List Char), ∀ part ∈ splitOnChar c l, c ∉ part := by
  intro l
  induction l with
  | nil =>
    intro part hp
    simp only [splitOnChar, List.mem_singleton] at hp
    subst hp
    simp
  | cons x xs ih =>
    intro part hp
    by_cases h : x = c
    · simp only [splitOnChar, h, if_true] at hp
      rcases List.mem_cons.mp hp with hp | hp
      · simp [hp]
      · exact ih part hp
    · simp only [splitOnChar, h, if_false] at hp
      cases hs : splitOnChar c xs with
      | nil => exact absurd hs (splitOnChar_ne_nil c xs)
      | cons y ys =>
        rw [hs] at hp
        rcases List.mem_cons.mp hp with hp | hp
        · subst hp
          intro hmem
          rcases List.mem_cons.mp hmem with hx | hx
          · exact h hx.symm
          · exact ih y (by rw [hs]; simp) hx
        · exact ih part (by rw [hs]; simp [hp])

theorem splitOnChar_no_sep (c : Char) : ∀ (l : List Char), c ∉ l → splitOnChar c l = [l] := by
  intro l
  induction l with
  | nil => intro; rfl
  | cons x xs ih =>
    intro hmem
    have hx : ¬x = c := by
      intro h
      exact hmem (by simp [h])
    have hxs : c ∉ xs := fun h => hmem (by simp [h])
    simp only [splitOnChar, hx, if_false, ih hxs]

theorem splitOnChar_append_sep (c : Char) :
    ∀ (a rest : List Char), c ∉ a →
      splitOnChar c (a ++ c :: rest) = a :: splitOnChar c rest := by
  intro a
  induction a with
  | nil => intro rest _; simp [splitOnChar]
  | cons x xs ih =>
    intro rest hmem
    have hx : ¬x = c := by
      intro h
      exact hmem (by simp [h])
    have hxs : c ∉ xs := fun h => hmem (by simp [h])
    simp only [List.cons_append, splitOnChar, hx, if_false, List.append_eq]
    rw [ih rest hxs]

theorem joinWithChar_split (c : Char) :
    ∀ (ls : List (List Char)), (∀ l ∈ ls, c ∉ l) → ls ≠ [] →
      splitOnChar c (joinWithChar c ls) = ls := by
  intro ls
  induction ls with
  | nil => intro _ h; exact absurd rfl h
  | cons x xs ih =>
    intro hmem _
    match xs with
    | [] =>
      simp only [joinWithChar]
      exact splitOnChar_no_sep c x (hmem x (by simp))
    | y :: ys =>
      simp only [joinWithChar]
      rw [splitOnChar_append_sep c x _ (hmem x (by simp))]
      rw [ih (by intro l hl; exact hmem l (by simp [hl])) (by simp)]

theorem jsOr_of_ne (a b : String) (h : a ≠ "") : jsOr a b = a := by
  simp [jsOr, h]

theorem jsSplit_jsJoin (linhas : List String)
    (h : ∀ s ∈ linhas, ('\n' : Char) ∉ s.data) (hne : linhas ≠ []) :
    jsSplit (jsJoin linhas '\n') '\n' = linhas := by
  simp only [jsSplit, jsJoin]
  rw [joinWithChar_split '\n' _
    (by intro l hl
        obtain ⟨s, hs, hds⟩ := List.mem_map.mp hl
        rw [← hds]
        exact h s hs)
    (by simpa using hne)]
  rw [List.map_map]
  have hcomp : ((fun l => String.mk l) ∘ String.data) = (id : String → String) :=
    funext (fun s => string_mk_data s)
  rw [hcomp, List.map_id]

theorem jsStartsWith_append (key v : String) : jsStartsWith (key ++ v) key = true := by
  simp [jsStartsWith, string_data_append, List.isPrefixOf_iff_prefix]

theorem jsStartsWith_of_longer (s a b : String) (h : jsStartsWith s (a ++ b) = true) :
    jsStartsWith s a = true := by
  simp only [jsStartsWith, List.isPrefixOf_iff_prefix, string_data_append] at h ⊢
  exact (List.prefix_append a.data b.data).trans h

theorem not_prefix_of_disagree (a b s : List Char) (i : Nat) (hia : i < a.length)
    (hib : i < b.length) (hne : a.get ⟨i, hia⟩ ≠ b.get ⟨i, hib⟩)
    (hb : b.isPrefixOf s = true) : a.isPrefixOf s = false := by
  by_contra hcon
  rw [Bool.not_eq_false] at hcon
  rw [List.isPrefixOf_iff_prefix] at hcon hb
  have h1 := hcon.getElem hia
  have h2 := hb.getElem hib
  apply hne
  rw [List.get_eq_getElem, List.get_eq_getElem]
  exact h1.trans h2.symm

theorem parseValorLinha_key (key v : String) (hkey : ('=' : Char) ∉ key.data)
    (hv : ('=' : Char) ∉ v.data) (htrim : jsTrim v = v) :
    parseValorLinha (key ++ "=" ++ v) = v := by
  simp only [parseValorLinha, jsSplit]
  have hdata : (key ++ "=" ++ v).data = key.data ++ '=' :: v.data := by
    rw [string_data_append, string_data_append]
    simp
  rw [hdata, splitOnChar_append_sep _ _ _ hkey, splitOnChar_no_sep _ _ hv]
  simp [string_mk_data, htrim]

theorem filter_set_unique (p : α → Bool) :
    ∀ (l : List α) (i : Nat) (hi : i < l.length),
      p (l.get ⟨i, hi⟩) = true → (l.filter p).length ≤ 1 →
      ∀ x, p x = true → (l.set i x).filter p = [x] := by
  intro l
  induction l with
  | nil => intro i hi; simp at hi
  | cons a as ih =>
    intro i hi hpi hcount x hpx
    cases i with
    | zero =>
      have hpa : p a = true := hpi
      have hfas : as.filter p = [] := by
        have h1 : (List.filter p (a :: as)).length ≤ 1 := hcount
        rw [List.filter_cons, hpa] at h1
        simp only [if_true, List.length_cons] at h1
        have h2 : (List.filter p as).length = 0 := by omega
        simpa using h2
      simp [List.filter_cons, hpx, hfas]
    | succ j =>
      have hj : j < as.length := by simpa using hi
      have hpj : p (as.get ⟨j, hj⟩) = true := by simpa using hpi
      have hpa : p a = false := by
        by_contra hcon
        rw [Bool.not_eq_false] at hcon
        have hmem : as.get ⟨j, hj⟩ ∈ as.filter p :=
          List.mem_filter.mpr ⟨List.get_mem as j hj, hpj⟩
        rw [List.filter_cons, hcon] at hcount
        simp only [if_true, List.length_cons] at hcount
        have h2 : (List.filter p as).length = 0 := by omega
        rw [List.length_eq_zero] at h2
        rw [h2] at hmem
        simp at hmem
      have hcount' : (as.filter p).length ≤ 1 := by
        rw [List.filter_cons, hpa] at hcount
        simpa using hcount
      show (a :: as.set j x).filter p = [x]
      rw [List.filter_cons, hpa]
      simpa using ih j hj hpj hcount' x hpx

theorem filter_set_other (q : α → Bool) :
    ∀ (l : List α) (i : Nat) (hi : i < l.length),
      q (l.get ⟨i, hi⟩) = false → ∀ x, q x = false →
      (l.set i x).filter q = l.filter q := by
  intro l
  induction l with
  | nil => intro i hi; simp at hi
  | cons a as ih =>
    intro i hi hqi x hqx
    cases i with
    | zero =>
      have hqa : q a = false := hqi
      simp [List.filter_cons, hqa, hqx]
    | succ j =>
      have hj : j < as.length := by simpa using hi
      have hqj : q (as.get ⟨j, hj⟩) = false := by simpa using hqi
      show (a :: as.set j x).filter q = (a :: as).filter q
      rw [List.filter_cons, List.filter_cons]
      rw [ih j hj hqj x hqx]

theorem mem_of_set (x y : α) :
    ∀ (l : List α) (i : Nat), y ∈ l.set i x → y ∈ l ∨ y = x := by
  intro l
  induction l with
  | nil => intro i hy; simp at hy
  | cons a as ih =>
    intro i hy
    cases i with
    | zero =>
      rcases List.mem_cons.mp hy with hy | hy
      · right; exact hy
      · left; simp [hy]
    | succ j =>
      rcases List.mem_cons.mp hy with hy | hy
      · left; simp [hy]
      · rcases ih j hy with h | h
        · left; simp [h]
        · right; exact h

theorem foldCred_login_nil (mL mS : String → Bool) :
    ∀ (linhas : List String) (cred : CredenciaisLidas),
      linhas.filter mL = [] →
      (linhas.foldl (fun cred linha =>
        let cred1 :=
          if mL linha then { cred with login := some (parseValorLinha linha) } else cred
        if mS linha then { cred1 with senha := some (parseValorLinha linha) } else cred1)
          cred).login = cred.login := by
  intro linhas
  induction linhas with
  | nil => intro cred _; rfl
  | cons l ls ih =>
    intro cred hf
    rw [List.filter_cons] at hf
    by_cases hml : mL l = true
    · rw [hml] at hf
      simp at hf
    · have hml' : mL l = false := by simpa using hml
      rw [hml'] at hf
      simp only [Bool.false_eq_true, if_false] at hf
      rw [List.foldl_cons]
      rw [ih _ hf]
      by_cases hms : mS l = true <;> simp [hml', hms]

theorem foldCred_senha_nil (mL mS : String → Bool) :
    ∀ (linhas : List String) (cred : CredenciaisLidas),
      linhas.filter mS = [] →
      (linhas.foldl (fun cred linha =>
        let cred1 :=
          if mL linha then { cred with login := some (parseValorLinha linha) } else cred
        if mS linha then { cred1 with senha := some (parseValorLinha linha) } else cred1)
          cred).senha = cred.senha := by
  intro linhas
  induction linhas with
  | nil => intro cred _; rfl
  | cons l ls ih =>
    intro cred hf
    rw [List.filter_cons] at hf
    by_cases hms : mS l = true
    · rw [hms] at hf
      simp at hf
    · have hms' : mS l = false := by simpa using hms
      rw [hms'] at hf
      simp only [Bool.false_eq_true, if_false] at hf
      rw [List.foldl_cons]
      rw [ih _ hf]
      by_cases hml : mL l = true <;> simp [hml, hms']

theorem foldCred_login_single (mL mS : String → Bool) :
    ∀ (linhas : List String) (cred : CredenciaisLidas) (lineL : String),
      linhas.filter mL = [lineL] →
      (linhas.foldl (fun cred linha =>
        let cred1 :=
          if mL linha then { cred with login := some (parseValorLinha linha) } else cred
        if mS linha then { cred1 with senha := some (parseValorLinha linha) } else cred1)
          cred).login = some (parseValorLinha lineL) := by
  intro linhas
  induction linhas with
  | nil => intro cred lineL hf; simp at hf
  | cons l ls ih =>
    intro cred lineL hf
    rw [List.filter_cons] at hf
    by_cases hml : mL l = true
    · rw [hml] at hf
      simp only [if_true] at hf
      have hl : l = lineL := by
        have := List.head_eq_of_cons_eq hf
        exact this
      have hrest : ls.filter mL = [] := List.tail_eq_of_cons_eq hf
      rw [List.foldl_cons]
      rw [foldCred_login_nil mL mS ls _ hrest]
      subst hl
      by_cases hms : mS l = true <;> simp [hml, hms]
    · have hml' : mL l = false := by simpa using hml
      rw [hml'] at hf
      simp only [Bool.false_eq_true, if_false] at hf
      rw [List.foldl_cons]
      exact ih _ lineL hf

theorem foldCred_senha_single (mL mS : String → Bool) :
    ∀ (linhas : List String) (cred : CredenciaisLidas) (lineS : String),
      linhas.filter mS = [lineS] →
      (linhas.foldl (fun cred linha =>
        let cred1 :=
          if mL linha then { cred with login := some (parseValorLinha linha) } else cred
        if mS linha then { cred1 with senha := some (parseValorLinha linha) } else cred1)
          cred).senha = some (parseValorLinha lineS) := by
  intro linhas
  induction linhas with
  | nil => intro cred lineS hf; simp at hf
  | cons l ls ih =>
    intro cred lineS hf
    rw [List.filter_cons] at hf
    by_cases hms : mS l = true
    · rw [hms] at hf
      simp only [if_true] at hf
      have hl : l = lineS := List.head_eq_of_cons_eq hf
      have hrest : ls.filter mS = [] := List.tail_eq_of_cons_eq hf
      rw [List.foldl_cons]
      rw [foldCred_senha_nil mL mS ls _ hrest]
      subst hl
      by_cases hml : mL l = true <;> simp [hml, hms]
    · have hms' : mS l = false := by simpa using hms
      rw [hms'] at hf
      simp only [Bool.false_eq_true, if_false] at hf
      rw [List.foldl_cons]
      exact ih _ lineS hf

theorem jsSplit_ne_nil (s : String) (c : Char) : jsSplit s c ≠ [] := by
  simp only [jsSplit]
  intro h
  exact splitOnChar_ne_nil c s.data (by simpa using h)

theorem jsSplit_no_sep (s : String) (c : Char) : ∀ l ∈ jsSplit s c, c ∉ l.data := by
  intro l hl
  simp only [jsSplit] at hl
  obtain ⟨part, hpart, hmk⟩ := List.mem_map.mp hl
  rw [← hmk]
  exact splitOnChar_not_mem c s.data part hpart

theorem startsWith_disjoint_of_disagree (a b : String)
    (hdis : ∃ (i : Nat) (hA : i < a.data.length) (hB : i < b.data.length),
      a.data.get ⟨i, hA⟩ ≠ b.data.get ⟨i, hB⟩) :
    ∀ s : String, jsStartsWith s a = true → jsStartsWith s b = false := by
  intro s hs
  obtain ⟨i, hA, hB, hne⟩ := hdis
  simp only [jsStartsWith] at hs ⊢
  exact not_prefix_of_disagree b.data a.data s.data i hB hA (fun h => hne h.symm) hs

theorem disagree_extend (a b suf1 suf2 : String)
    (hdis : ∃ (i : Nat) (hA : i < a.data.length) (hB : i < b.data.length),
      a.data.get ⟨i, hA⟩ ≠ b.data.get ⟨i, hB⟩) :
    ∃ (i : Nat) (hA : i < (a ++ suf1).data.length) (hB : i < (b ++ suf2).data.length),
      (a ++ suf1).data.get ⟨i, hA⟩ ≠ (b ++ suf2).data.get ⟨i, hB⟩ := by
  obtain ⟨i, hA, hB, hne⟩ := hdis
  have hA1 : i < (a ++ suf1).data.length := by
    rw [string_data_append, List.length_append]
    omega
  have hB1 : i < (b ++ suf2).data.length := by
    rw [string_data_append, List.length_append]
    omega
  refine ⟨i, hA1, hB1, ?_⟩
  intro heq
  apply hne
  rw [List.get_eq_getElem, List.get_eq_getElem] at heq ⊢
  have e1 : (a ++ suf1).data[i] = a.data[i] := by
    simp only [string_data_append]
    rw [List.getElem_append_left hA]
  have e2 : (b ++ suf2).data[i] = b.data[i] := by
    simp only [string_data_append]
    rw [List.getElem_append_left hB]
  rw [← e1, ← e2]
  exact heq

theorem atualizarCampo_facts (key valor : String) (linhas : List String)
    (hcount : (linhas.filter (fun l => jsStartsWith l (key ++ "="))).length ≤ 1)
    (hne : linhas ≠ []) :
    (atualizarCampo key key valor linhas).filter (fun l => jsStartsWith l (key ++ "="))
      = [key ++ "=" ++ valor] ∧
    (∀ q : String → Bool, q (key ++ "=" ++ valor) = false →
      (∀ l, jsStartsWith l (key ++ "=") = true → q l = false) →
      (atualizarCampo key key valor linhas).filter q = linhas.filter q) ∧
    atualizarCampo key key valor linhas ≠ [] ∧
    (∀ y ∈ atualizarCampo key key valor linhas, y ∈ linhas ∨ y = key ++ "=" ++ valor) := by
  have hP : (fun l => jsStartsWith l (key ++ "=") || jsStartsWith l (key ++ "="))
      = (fun l => jsStartsWith l (key ++ "=")) := funext (fun l => Bool.or_self _)
  have hnew : jsStartsWith (key ++ "=" ++ valor) (key ++ "=") = true :=
    jsStartsWith_append (key ++ "=") valor
  simp only [atualizarCampo, hP]
  cases hfi : linhas.findIdx? (fun l => jsStartsWith l (key ++ "=")) with
  | none =>
    have hnil : linhas.filter (fun l => jsStartsWith l (key ++ "=")) = [] := by
      rw [List.filter_eq_nil_iff]
      intro a ha
      simp [List.findIdx?_eq_none_iff.mp hfi a ha]
    refine ⟨?_, ?_, by simp, ?_⟩
    · rw [List.filter_append, hnil]
      simp [hnew]
    · intro q hq _
      rw [List.filter_append]
      simp [hq]
    · intro y hy
      rcases List.mem_append.mp hy with hy | hy
      · left; exact hy
      · right; simpa using hy
  | some idx =>
    obtain ⟨hi, hcur, hprev⟩ := findIdx?_some_charact _ _ idx hfi
    refine ⟨filter_set_unique _ linhas idx hi hcur hcount _ hnew, ?_, ?_, ?_⟩
    · intro q hq hql
      exact filter_set_other q linhas idx hi (hql _ hcur) _ hq
    · intro hcon
      apply hne
      have hcon2 : linhas.set idx (key ++ "=" ++ valor) = [] := hcon
      have hlen : (linhas.set idx (key ++ "=" ++ valor)).length = 0 := by
        rw [hcon2]
        rfl
      rw [List.length_set] at hlen
      rwa [← List.length_eq_zero]
    · intro y hy
      exact mem_of_set _ _ linhas idx hy

theorem obterCredenciaisLinhas_eq_fold (campos : CamposCredenciais)
    (hLne : campos.login ≠ "") (hSne : campos.senha ≠ "") (linhas : List String) :
    obterCredenciaisLinhas campos linhas
      = linhas.foldl (fun cred linha =>
          let cred1 :=
            if (fun l => jsStartsWith l (campos.login ++ "=")) linha then
              { cred with login := some (parseValorLinha linha) }
            else cred
          if (fun l => jsStartsWith l (campos.senha ++ "=")) linha then
            { cred1 with senha := some (parseValorLinha linha) }
          else cred1)
        { login := none, senha := none } := by
  simp only [obterCredenciaisLinhas, jsOr_of_ne _ _ hLne, jsOr_of_ne _ _ hSne, Bool.or_self]

theorem newline_not_mem_keyline (key v : String) (hk : ('\n' : Char) ∉ key.data)
    (hv : ('\n' : Char) ∉ v.data) : ('\n' : Char) ∉ (key ++ "=" ++ v).data := by
  rw [string_data_append, string_data_append]
  intro h
  rcases List.mem_append.mp h with h | h
  · rcases List.mem_append.mp h with h | h
    · exact hk h
    · simp at h
  · exact hv h

theorem credenciais_eta (c : CredenciaisLidas) (a b : Option String)
    (h1 : c.login = a) (h2 : c.senha = b) : c = ⟨a, b⟩ := by
  cases c
  cases h1
  cases h2
  rfl

theorem codec_roundtrip_core (campos : CamposCredenciais) (envContent login senha : String)
    (hLne : campos.login ≠ "") (hSne : campos.senha ≠ "")
    (hLeq : ('=' : Char) ∉ campos.login.data) (hSeq : ('=' : Char) ∉ campos.senha.data)
    (hLnl : ('\n' : Char) ∉ campos.login.data) (hSnl : ('\n' : Char) ∉ campos.senha.data)
    (hdis : ∃ (i : Nat) (hA : i < campos.login.data.length) (hB : i < campos.senha.data.length),
      campos.login.data.get ⟨i, hA⟩ ≠ campos.senha.data.get ⟨i, hB⟩)
    (hlogEq : ('=' : Char) ∉ login.data) (hsenEq : ('=' : Char) ∉ senha.data)
    (hlogNl : ('\n' : Char) ∉ login.data) (hsenNl : ('\n' : Char) ∉ senha.data)
    (hlogTr : jsTrim login = login) (hsenTr : jsTrim senha = senha)
    (hcountL : ((jsSplit envContent '\n').filter
      (fun l => jsStartsWith l (campos.login ++ "="))).length ≤ 1)
    (hcountS : ((jsSplit envContent '\n').filter
      (fun l => jsStartsWith l (campos.senha ++ "="))).length ≤ 1) :
    obterCredenciaisLinhas campos
        (atualizarCampo (jsOr campos.senha campos.pass) campos.senha senha
          (atualizarCampo (jsOr campos.login campos.usr) campos.login login
            (jsSplit envContent '\n')))
      = { login := some login, senha := some senha } ∧
    (atualizarCampo (jsOr campos.senha campos.pass) campos.senha senha
        (atualizarCampo (jsOr campos.login campos.usr) campos.login login
          (jsSplit envContent '\n'))).filter
        (fun l => !(jsStartsWith l campos.login) && !(jsStartsWith l campos.senha))
      = (jsSplit envContent '\n').filter
        (fun l => !(jsStartsWith l campos.login) && !(jsStartsWith l campos.senha)) ∧
    (∀ s ∈ atualizarCampo (jsOr campos.senha campos.pass) campos.senha senha
        (atualizarCampo (jsOr campos.login campos.usr) campos.login login
          (jsSplit envContent '\n')), ('\n' : Char) ∉ s.data) ∧
    atualizarCampo (jsOr campos.senha campos.pass) campos.senha senha
        (atualizarCampo (jsOr campos.login campos.usr) campos.login login
          (jsSplit envContent '\n')) ≠ [] := by
  rw [jsOr_of_ne campos.login campos.usr hLne, jsOr_of_ne campos.senha campos.pass hSne]
  have hL0ne := jsSplit_ne_nil envContent '\n'
  obtain ⟨hf1filter, hf1other, hf1ne, hf1mem⟩ :=
    atualizarCampo_facts campos.login login (jsSplit envContent '\n') hcountL hL0ne
  have hdisLS := disagree_extend campos.login campos.senha "=" "=" hdis
  have hdisSL := disagree_extend campos.senha campos.login "=" "="
    (by obtain ⟨i, hA, hB, hne⟩ := hdis; exact ⟨i, hB, hA, fun h => hne h.symm⟩)
  have hLS := startsWith_disjoint_of_disagree (campos.login ++ "=") (campos.senha ++ "=") hdisLS
  have hSL := startsWith_disjoint_of_disagree (campos.senha ++ "=") (campos.login ++ "=") hdisSL
  have hnewL : jsStartsWith (campos.login ++ "=" ++ login) (campos.login ++ "=") = true :=
    jsStartsWith_append (campos.login ++ "=") login
  have hnewS : jsStartsWith (campos.senha ++ "=" ++ senha) (campos.senha ++ "=") = true :=
    jsStartsWith_append (campos.senha ++ "=") senha
  have hfilterS1 : (atualizarCampo campos.login campos.login login
        (jsSplit envContent '\n')).filter (fun l => jsStartsWith l (campos.senha ++ "="))
      = (jsSplit envContent '\n').filter (fun l => jsStartsWith l (campos.senha ++ "=")) :=
    hf1other _ (hLS _ hnewL) (fun l hl => hLS l hl)
  have hcountS1 : ((atualizarCampo campos.login campos.login login
        (jsSplit envContent '\n')).filter
      (fun l => jsStartsWith l (campos.senha ++ "="))).length ≤ 1 := by
    rw [hfilterS1]
    exact hcountS
  obtain ⟨hf2filter, hf2other, hf2ne, hf2mem⟩ :=
    atualizarCampo_facts campos.senha senha
      (atualizarCampo campos.login campos.login login (jsSplit envContent '\n')) hcountS1 hf1ne
  have hfilterL2 : (atualizarCampo campos.senha campos.senha senha
        (atualizarCampo campos.login campos.login login (jsSplit envContent '\n'))).filter
        (fun l => jsStartsWith l (campos.login ++ "="))
      = [campos.login ++ "=" ++ login] := by
    rw [hf2other _ (hSL _ hnewS) (fun l hl => hSL l hl)]
    exact hf1filter
  have hqNL : ∀ l, jsStartsWith l (campos.login ++ "=") = true →
      (!(jsStartsWith l campos.login) && !(jsStartsWith l campos.senha)) = false := by
    intro l hl
    have := jsStartsWith_of_longer l campos.login "=" hl
    simp [this]
  have hqNS : ∀ l, jsStartsWith l (campos.senha ++ "=") = true →
      (!(jsStartsWith l campos.login) && !(jsStartsWith l campos.senha)) = false := by
    intro l hl
    have := jsStartsWith_of_longer l campos.senha "=" hl
    simp [this]
  have hneutral : (atualizarCampo campos.senha campos.senha senha
        (atualizarCampo campos.login campos.login login (jsSplit envContent '\n'))).filter
        (fun l => !(jsStartsWith l campos.login) && !(jsStartsWith l campos.senha))
      = (jsSplit envContent '\n').filter
        (fun l => !(jsStartsWith l campos.login) && !(jsStartsWith l campos.senha)) := by
    rw [hf2other _ (hqNS _ hnewS) (fun l hl => hqNS l hl)]
    exact hf1other _ (hqNL _ hnewL) (fun l hl => hqNL l hl)
  have hmemNl : ∀ s ∈ atualizarCampo campos.senha campos.senha senha
      (atualizarCampo campos.login campos.login login (jsSplit envContent '\n')),
      ('\n' : Char) ∉ s.data := by
    intro s hs
    rcases hf2mem s hs with hs1 | hs1
    · rcases hf1mem s hs1 with hs2 | hs2
      · exact jsSplit_no_sep envContent '\n' s hs2
      · subst hs2
        exact newline_not_mem_keyline campos.login login hLnl hlogNl
    · subst hs1
      exact newline_not_mem_keyline campos.senha senha hSnl hsenNl
  refine ⟨?_, hneutral, hmemNl, hf2ne⟩
  rw [obterCredenciaisLinhas_eq_fold campos hLne hSne]
  have h1 := foldCred_login_single (fun l => jsStartsWith l (campos.login ++ "="))
    (fun l => jsStartsWith l (campos.senha ++ "="))
    (atualizarCampo campos.senha campos.senha senha
      (atualizarCampo campos.login campos.login login (jsSplit envContent '\n')))
    { login := none, senha := none } (campos.login ++ "=" ++ login) hfilterL2
  have h2 := foldCred_senha_single (fun l => jsStartsWith l (campos.login ++ "="))
    (fun l => jsStartsWith l (campos.senha ++ "="))
    (atualizarCampo campos.senha campos.senha senha
      (atualizarCampo campos.login campos.login login (jsSplit envContent '\n')))
    { login := none, senha := none } (campos.senha ++ "=" ++ senha) hf2filter
  rw [parseValorLinha_key campos.login login hLeq hlogEq hlogTr] at h1
  rw [parseValorLinha_key campos.senha senha hSeq hsenEq hsenTr] at h2
  exact credenciais_eta _ _ _ h1 h2

theorem mapeamento_facts (bancoId : String) (campos : CamposCredenciais)
    (hmap : mapeamentoCredenciais bancoId = some campos) :
    campos.login ≠ "" ∧ campos.senha ≠ "" ∧
    ('=' : Char) ∉ campos.login.data ∧ ('=' : Char) ∉ campos.senha.data ∧
    ('\n' : Char) ∉ campos.login.data ∧ ('\n' : Char) ∉ campos.senha.data ∧
    (∃ (i : Nat) (hA : i < campos.login.data.length) (hB : i < campos.senha.data.length),
      campos.login.data.get ⟨i, hA⟩ ≠ campos.senha.data.get ⟨i, hB⟩) := by
  simp only [mapeamentoCredenciais] at hmap
  by_cases h1 : (bancoId == "presencabank") = true
  · rw [if_pos h1] at hmap
    injection hmap with h
    subst h
    exact ⟨by decide, by decide, by decide, by decide, by decide, by decide,
      ⟨13, by decide, by decide, by decide⟩⟩
  · rw [if_neg h1] at hmap
    by_cases h2 : (bancoId == "v8") = true
    · rw [if_pos h2] at hmap
      injection hmap with h
      subst h
      exact ⟨by decide, by decide, by decide, by decide, by decide, by decide,
        ⟨3, by decide, by decide, by decide⟩⟩
    · rw [if_neg h2] at hmap
      by_cases h3 : (bancoId == "hubcredito") = true
      · rw [if_pos h3] at hmap
        injection hmap with h
        subst h
        exact ⟨by decide, by decide, by decide, by decide, by decide, by decide,
          ⟨11, by decide, by decide, by decide⟩⟩
      · rw [if_neg h3] at hmap
        exact absurd hmap (by simp)

/-- Counterexample to C2 as stated: with integration "v8", empty file content
and login value "a=b" (password "p"), writing and then reading back returns
login "a" — the read side takes only the fragment between the first and
second "=" of the line — so the round-trip does not return the login
unchanged for every login string. -/
theorem claim2_counterexample_igual :
    (atualizarCredenciaisBancoEnv "v8" "" { login := "a=b", senha := "p" }).bind
        (obterCredenciaisBancoEnv "v8")
      = some { login := some "a", senha := some "p" } ∧
    (some { login := some "a", senha := some "p" } : Option CredenciaisLidas)
      ≠ some { login := some "a=b", senha := some "p" } := by
  constructor
  · decide
  · decide

/-- Claim C2 (amended): the credential codec round-trip holds for every
integration with a known key mapping and every file content that carries at
most one line per credential key, provided the two written values are
non-empty and contain no "=", no newline and no leading or trailing
whitespace: reading back the written content returns exactly the written
login and password, and every line of the original content that does not
start with that integration's login or password key names is preserved
verbatim and in its original order. -/
theorem claim2_codec_roundtrip (bancoId : String) (campos : CamposCredenciais)
    (envContent login senha : String)
    (hmap : mapeamentoCredenciais bancoId = some campos)
    (hlog : login ≠ "") (hsen : senha ≠ "")
    (hlogEq : ('=' : Char) ∉ login.data) (hsenEq : ('=' : Char) ∉ senha.data)
    (hlogNl : ('\n' : Char) ∉ login.data) (hsenNl : ('\n' : Char) ∉ senha.data)
    (hlogTr : jsTrim login = login) (hsenTr : jsTrim senha = senha)
    (hcountL : ((jsSplit envContent '\n').filter
      (fun l => jsStartsWith l (campos.login ++ "="))).length ≤ 1)
    (hcountS : ((jsSplit envContent '\n').filter
      (fun l => jsStartsWith l (campos.senha ++ "="))).length ≤ 1) :
    ∃ novoContent : String,
      atualizarCredenciaisBancoEnv bancoId envContent { login := login, senha := senha }
        = some novoContent ∧
      obterCredenciaisBancoEnv bancoId novoContent
        = some { login := some login, senha := some senha } ∧
      (jsSplit novoContent '\n').filter
          (fun l => !(jsStartsWith l campos.login) && !(jsStartsWith l campos.senha))
        = (jsSplit envContent '\n').filter
          (fun l => !(jsStartsWith l campos.login) && !(jsStartsWith l campos.senha)) := by
  obtain ⟨hLne, hSne, hLeq, hSeq, hLnl, hSnl, hdis⟩ := mapeamento_facts bancoId campos hmap
  obtain ⟨hobter, hneutral, hmemNl, hL2ne⟩ := codec_roundtrip_core campos envContent login senha
    hLne hSne hLeq hSeq hLnl hSnl hdis hlogEq hsenEq hlogNl hsenNl hlogTr hsenTr hcountL hcountS
  have hlog' : (login != "") = true := by simpa using hlog
  have hsen' : (senha != "") = true := by simpa using hsen
  have hsplitjoin := jsSplit_jsJoin _ hmemNl hL2ne
  refine ⟨jsJoin (atualizarCampo (jsOr campos.senha campos.pass) campos.senha senha
      (atualizarCampo (jsOr campos.login campos.usr) campos.login login
        (jsSplit envContent '\n'))) '\n', ?_, ?_, ?_⟩
  · simp only [atualizarCredenciaisBancoEnv, hmap, hlog', hsen', if_true, Bool.true_or]
  · simp only [obterCredenciaisBancoEnv, hmap, hsplitjoin, hobter]
  · rw [hsplitjoin]
    exact hneutral

/-- Witness for C2 (amended): on a concrete `.env` content with an existing
V8 login line, a comment and an unrelated key, writing `novo`/`segredo` and
reading back returns exactly those values. -/
theorem claim2_codec_roundtrip_witness :
    (atualizarCredenciaisBancoEnv "v8" "PORT=5000\nV8_USERNAME=antigo\n# fim"
        { login := "novo", senha := "segredo" }).bind (obterCredenciaisBancoEnv "v8")
      = some { login := some "novo", senha := some "segredo" } := by
  obtain ⟨nc, h1, h2, h3⟩ := claim2_codec_roundtrip "v8"
    { login := "V8_USERNAME", senha := "V8_PASSWORD", usr := "V8_USR", pass := "V8_PASS" }
    "PORT=5000\nV8_USERNAME=antigo\n# fim" "novo" "segredo"
    (by decide) (by decide) (by decide) (by decide) (by decide) (by decide) (by decide)
    (by decide) (by decide) (by decide) (by decide)
  rw [h1]
  simpa using h2
